import Mathlib

/-!
# Essos compositor client: Display registry, reference counts, surfaces

A shallow embedding of `Source/compositorclient/Essos/Implementation.h` and
`Implementation.cpp`.

* Pointers are natural numbers, `none` is `nullptr`.
* Every call that leaves the translation unit (the Essos backend, `getenv`)
  is appended to a trace, in program order; what such a call returns is an
  input of the model.
* `uint32_t` counters are natural numbers reduced modulo `2 ^ 32`.
* The code is modelled for one thread: `_adminLock` is not represented.
-/

namespace WPEFramework
namespace Wayland

/-! ## Trace of outgoing calls -/

/-- One outgoing call, or the entry of one of the two life-cycle methods of `Display`. -/
inductive Event where
  | getenv (var : String)
  | EssContextCreate
  | EssContextSetUseWayland (ctx : Nat) (useWayland : Bool)
  | EssContextSetTerminateListener (ctx : Nat)
  | EssContextSetSettingsListener (ctx : Nat)
  | EssContextSetKeyListener (ctx : Nat)
  | EssContextStart (ctx : Nat)
  | EssContextGetLastErrorDetail (ctx : Option Nat)
  | EssContextDestroy (ctx : Option Nat)
  | EssContextRunEventLoopOnce (ctx : Option Nat)
  | EssContextResizeWindow (ctx : Option Nat) (width height : Int)
  | Initialize (displayName : String)
  | Deinitialize_ (displayName : String)
  | Dispatch
  deriving DecidableEq, Repr

/-- Entry of `Display::Initialize`. -/
def Event.isInitialize : Event → Bool
  | .Initialize _ => true
  | _ => false

/-- Entry of `Display::Deinitialize`. -/
def Event.isDeinitialize_ : Event → Bool
  | .Deinitialize_ _ => true
  | _ => false

/-- A call of `EssContextRunEventLoopOnce`, whatever its argument. -/
def Event.isRunEventLoopOnce : Event → Bool
  | .EssContextRunEventLoopOnce _ => true
  | _ => false

/-- A call of `EssContextResizeWindow`. -/
def Event.isResizeWindow : Event → Bool
  | .EssContextResizeWindow _ _ _ => true
  | _ => false

/-- A call of `IProcess::Dispatch`. -/
def Event.isDispatch : Event → Bool
  | .Dispatch => true
  | _ => false

/-! ## Process-wide statics other than the registry -/

/-- The statics `_runtimeDir`, `gDisplayWidth`, `gDisplayHeight`, and the trace. -/
structure World where
  _runtimeDir : String
  gDisplayWidth : Int
  gDisplayHeight : Int
  trace : List Event
  deriving DecidableEq, Repr

/-- Statics at program start: empty string, zero-initialised integers, nothing called yet. -/
def World.fresh : World :=
  { _runtimeDir := "", gDisplayWidth := 0, gDisplayHeight := 0, trace := [] }

/-- Record one outgoing call. -/
def World.emit (w : World) (e : Event) : World :=
  { w with trace := w.trace ++ [e] }

/-- What the environment and the backend answer during one run of `Display::Initialize`. -/
structure InitEnv where
  /-- Result of `getenv("XDG_RUNTIME_DIR")`. -/
  XDG_RUNTIME_DIR : Option String
  /-- Result of `atoi(getenv("ESSOS_USE_WAYLAND"))`, `none` when the variable is unset. -/
  ESSOS_USE_WAYLAND : Option Int
  /-- Result of `EssContextCreate()`. -/
  EssContextCreate : Option Nat
  /-- Result of `EssContextStart(ctx)`. -/
  EssContextStart : Bool
  deriving DecidableEq, Repr

/-! ## Display -/

/-- The non-static data members of `Display`. -/
structure Display where
  _displayName : String
  _essCtx : Option Nat
  _surfaces : List Nat
  _refCount : Nat
  deriving DecidableEq, Repr

/-- The status codes `Display::Release` returns. -/
inductive ErrorCode where
  | ERROR_NONE
  | ERROR_CONNECTION_CLOSED
  deriving DecidableEq, Repr

/-- `Core::InterlockedIncrement` on a `uint32_t`: returns the new value. -/
def InterlockedIncrement (c : Nat) : Nat := (c + 1) % 2 ^ 32

/-- `Core::InterlockedDecrement` on a `uint32_t`: returns the new value. -/
def InterlockedDecrement (c : Nat) : Nat := (c + 2 ^ 32 - 1) % 2 ^ 32

/-- `Display::Display(name)`: the member `_essCtx` has no initialiser, its value `uninit` is
whatever the allocation holds. -/
def Display.new (name : String) (uninit : Option Nat) : Display :=
  { _displayName := name, _essCtx := uninit, _surfaces := [], _refCount := 0 }

/-- `Display::Initialize`. -/
def Display.Initialize (this : Display) (w : World) (env : InitEnv) : Display × World :=
  let w := w.emit (.Initialize this._displayName)
  if this._displayName = "wayland-0" then (this, w)
  else
    let w :=
      if w._runtimeDir.isEmpty then
        let w := w.emit (.getenv "XDG_RUNTIME_DIR")
        match env.XDG_RUNTIME_DIR with
        | some val => { w with _runtimeDir := val }
        | none => w
      else w
    let w := w.emit (.getenv "ESSOS_USE_WAYLAND")
    let useWayland : Bool :=
      match env.ESSOS_USE_WAYLAND with
      | some val => decide (val ≠ 0)
      | none => true
    let w := w.emit .EssContextCreate
    let this := { this with _essCtx := env.EssContextCreate }
    match this._essCtx with
    | some ctx =>
      let w := w.emit (.EssContextSetUseWayland ctx useWayland)
      let w := w.emit (.EssContextSetTerminateListener ctx)
      let w := w.emit (.EssContextSetSettingsListener ctx)
      let w := w.emit (.EssContextSetKeyListener ctx)
      let w := w.emit (.EssContextStart ctx)
      if env.EssContextStart then (this, w)
      else (this, w.emit (.EssContextGetLastErrorDetail this._essCtx))
    | none => (this, w.emit (.EssContextGetLastErrorDetail this._essCtx))

/-- `Display::Deinitialize`. -/
def Display.Deinitialize_ (this : Display) (w : World) : Display × World :=
  let w := w.emit (.Deinitialize_ this._displayName)
  let w := w.emit (.EssContextDestroy this._essCtx)
  ({ this with _essCtx := none }, w)

/-- `Display::AddRef`. -/
def Display.AddRef (this : Display) (w : World) (env : InitEnv) : Display × World :=
  let this := { this with _refCount := InterlockedIncrement this._refCount }
  if this._refCount = 1 then this.Initialize w env else (this, w)

/-- `Display::Release`. -/
def Display.Release (this : Display) (w : World) : ErrorCode × Display × World :=
  let this := { this with _refCount := InterlockedDecrement this._refCount }
  if this._refCount = 0 then
    let r := this.Deinitialize_ w
    (.ERROR_CONNECTION_CLOSED, r)
  else (.ERROR_NONE, this, w)

/-- `Display::Process(const uint32_t data)`. -/
def Display.Process (this : Display) (w : World) (_data : Nat) : Int × World :=
  let result : Int := 0
  let w := w.emit (.EssContextRunEventLoopOnce this._essCtx)
  (result, w)

/-- `Display::Process(IProcess* processLoop)`. The dispatcher is an object with a state of its
own, `Dispatch` answers and moves that state on. `fuel` bounds the number of `Dispatch`
calls; `none` means the bound was reached with the loop still running. -/
def Display.ProcessIProcess {σ : Type} (this : Display) (Dispatch : σ → Bool × σ) :
    Nat → σ → World → Option (σ × World)
  | 0, _, _ => none
  | fuel + 1, processLoop, w =>
    let r := Dispatch processLoop
    let w := w.emit .Dispatch
    if r.1 then
      let w := if this._essCtx.isSome then w.emit (.EssContextRunEventLoopOnce this._essCtx) else w
      Display.ProcessIProcess this Dispatch fuel r.2 w
    else some (r.2, w)

/-- The dispatcher answers `true` exactly `k` times from state `p` on, and `false` after. -/
def trueTimesThenFalse {σ : Type} (Dispatch : σ → Bool × σ) : Nat → σ → Bool
  | 0, p => !(Dispatch p).1
  | k + 1, p => (Dispatch p).1 && trueTimesThenFalse Dispatch k (Dispatch p).2

/-- `displaySizeCb(userData, width, height)`; `userData` is the context the listener was
installed with. -/
def displaySizeCb (w : World) (userData : Option Nat) (width height : Int) : World :=
  let ctx := userData
  if w.gDisplayWidth ≠ width ∨ w.gDisplayHeight ≠ height then
    let w := { w with gDisplayWidth := width }
    let w := { w with gDisplayHeight := height }
    w.emit (.EssContextResizeWindow ctx width height)
  else w

/-- `Display::Register`. -/
def Display.Register (this : Display) (surface : Nat) : Display :=
  if surface ∉ this._surfaces then { this with _surfaces := this._surfaces ++ [surface] }
  else this

/-- `Display::Unregister`: `std::find` yields the first occurrence, `erase` removes it. -/
def Display.Unregister (this : Display) (surface : Nat) : Display :=
  if surface ∈ this._surfaces then { this with _surfaces := this._surfaces.erase surface }
  else this

/-! ## Surfaces -/

/-- Conversion of a `uint32_t` to `int32_t`. -/
def toInt32 (n : Nat) : Int :=
  if n % 2 ^ 32 < 2 ^ 31 then (n % 2 ^ 32 : Nat) else ((n % 2 ^ 32 : Nat) : Int) - 2 ^ 32

/-- The data members of `SurfaceImplementation` (`_id` and `_upScale` are never written). -/
structure SurfaceImplementation where
  _parent : Nat
  _refcount : Nat
  _name : String
  _width : Int
  _height : Int
  _nativeWindow : Option Nat
  _keyboard : Option Nat
  deriving DecidableEq, Repr

/-- The member initialisers of `SurfaceImplementation::SurfaceImplementation`. -/
def SurfaceImplementation.new (display : Nat) (name : String) (width height : Nat) :
    SurfaceImplementation :=
  { _parent := display, _refcount := 1, _name := name, _width := toInt32 width,
    _height := toInt32 height, _nativeWindow := none, _keyboard := none }

/-- `SurfaceImplementation::Keyboard`; `none` is a failed `assert`. -/
def SurfaceImplementation.Keyboard (this : SurfaceImplementation) (keyboard : Option Nat) :
    Option SurfaceImplementation :=
  if Bool.xor (this._keyboard == none) (keyboard == none) then
    some { this with _keyboard := keyboard }
  else none

/-! ## The registry and the objects on the heap -/

/-- `DisplayMap::find`: the value stored under `key`, `none` for `end()`. -/
def DisplayMap.find : List (String × Nat) → String → Option Nat
  | [], _ => none
  | (k, v) :: rest, key => if k = key then some v else DisplayMap.find rest key

/-- `DisplayMap::insert`: a `std::map` keeps the entry it has when the key is present. The
order of the entries is never observed by the code. -/
def DisplayMap.insert (m : List (String × Nat)) (key : String) (value : Nat) :
    List (String × Nat) :=
  match DisplayMap.find m key with
  | some _ => m
  | none => m ++ [(key, value)]

/-- The whole process: the registry `_displays`, the `Display` objects (the address of a
Display is its position in `heap`; the code never deletes one), the live
`SurfaceImplementation` objects by address, and the other statics. -/
structure State where
  _displays : List (String × Nat)
  heap : List Display
  surfaces : Nat → Option SurfaceImplementation
  world : World

/-- Process start: empty registry, no objects. -/
def State.fresh : State :=
  { _displays := [], heap := [], surfaces := fun _ => none, world := World.fresh }

/-- Run `AddRef` on the Display at address `p`. -/
def State.AddRef (s : State) (p : Nat) (env : InitEnv) : State :=
  match s.heap[p]? with
  | some d =>
    let r := d.AddRef s.world env
    { s with heap := s.heap.set p r.1, world := r.2 }
  | none => s

/-- Run `Release` on the Display at address `p`. -/
def State.Release (s : State) (p : Nat) : ErrorCode × State :=
  match s.heap[p]? with
  | some d =>
    let r := d.Release s.world
    (r.1, { s with heap := s.heap.set p r.2.1, world := r.2.2 })
  | none => (.ERROR_NONE, s)

/-- `Display::Instance(displayName)`: returns the address of the Display and the new state. -/
def Display.Instance (s : State) (displayName : String) (uninit : Option Nat) (env : InitEnv) :
    Nat × State :=
  match DisplayMap.find s._displays displayName with
  | none =>
    let result := s.heap.length
    let s := { s with heap := s.heap ++ [Display.new displayName uninit] }
    let s := { s with _displays := DisplayMap.insert s._displays displayName result }
    (result, s.AddRef result env)
  | some result => (result, s.AddRef result env)

/-- Apply `f` to the Display at address `p`. -/
def State.onDisplay (s : State) (p : Nat) (f : Display → Display) : State :=
  match s.heap[p]? with
  | some d => { s with heap := s.heap.set p (f d) }
  | none => s

/-- `Display::Create` on the Display at address `this`; `address` is what `new` returns. The
constructor of the surface registers it with its parent. -/
def Display.Create (s : State) (this : Nat) (address : Nat) (name : String)
    (width height : Nat) : Nat × State :=
  let f := SurfaceImplementation.new this name width height
  let s := { s with surfaces := Function.update s.surfaces address (some f) }
  (address, s.onDisplay this (fun d => d.Register address))

/-- `SurfaceImplementation::AddRef` on the surface at address `this`. -/
def SurfaceImplementation.AddRef (s : State) (this : Nat) : State :=
  match s.surfaces this with
  | some f =>
    let f := { f with _refcount := (f._refcount + 1) % 2 ^ 32 }
    { s with surfaces := Function.update s.surfaces this (some f) }
  | none => s

/-- `SurfaceImplementation::Release` on the surface at address `this`: at zero the object
is deleted, its destructor unregisters it from its parent. -/
def SurfaceImplementation.Release (s : State) (this : Nat) : Nat × State :=
  match s.surfaces this with
  | some f =>
    let f := { f with _refcount := (f._refcount + 2 ^ 32 - 1) % 2 ^ 32 }
    if f._refcount = 0 then
      let s := s.onDisplay f._parent (fun d => d.Unregister this)
      (0, { s with surfaces := Function.update s.surfaces this none })
    else (0, { s with surfaces := Function.update s.surfaces this (some f) })
  | none => (0, s)

/-! ## Histories of calls -/

/-- A call on the registry or on a Display. -/
inductive Call where
  | Instance (displayName : String) (uninit : Option Nat) (env : InitEnv)
  | Release (display : Nat)
  deriving DecidableEq, Repr

/-- The state after one call. -/
def State.call (s : State) : Call → State
  | .Instance displayName uninit env => (Display.Instance s displayName uninit env).2
  | .Release p => (s.Release p).2

/-- The state after a sequence of calls. -/
def State.run (s : State) : List Call → State
  | [] => s
  | c :: cs => (s.call c).run cs

/-- The call does not release a Display whose count is 0 (or an address that holds none). -/
def State.releaseOk (s : State) : Call → Bool
  | .Instance _ _ _ => true
  | .Release p =>
    match s.heap[p]? with
    | some d => d._refCount != 0
    | none => false

/-- The call does not increment a count that stands at `2 ^ 32 - 1`. -/
def State.noWrap (s : State) : Call → Bool
  | .Instance displayName _ _ =>
    match DisplayMap.find s._displays displayName with
    | some p =>
      match s.heap[p]? with
      | some d => d._refCount != 2 ^ 32 - 1
      | none => true
    | none => true
  | .Release _ => true

/-- No call of the history releases a Display whose count is 0. -/
def State.neverReleasesAtZero (s : State) : List Call → Bool
  | [] => true
  | c :: cs => s.releaseOk c && (s.call c).neverReleasesAtZero cs

/-- No call of the history wraps a reference count around. -/
def State.neverWraps (s : State) : List Call → Bool
  | [] => true
  | c :: cs => s.noWrap c && (s.call c).neverWraps cs

/-- A call on a surface, or the creation of one. -/
inductive SurfaceCall where
  | Create (display : Nat) (address : Nat) (name : String) (width height : Nat)
  | AddRef (surface : Nat)
  | Release (surface : Nat)
  deriving DecidableEq, Repr

/-- The state after one surface call. -/
def State.surfaceCall (s : State) : SurfaceCall → State
  | .Create display address name width height =>
    (Display.Create s display address name width height).2
  | .AddRef a => SurfaceImplementation.AddRef s a
  | .Release a => (SurfaceImplementation.Release s a).2

/-- The state after a sequence of surface calls. -/
def State.surfaceRun (s : State) : List SurfaceCall → State
  | [] => s
  | c :: cs => (s.surfaceCall c).surfaceRun cs

/-- The call is one a client can make: `Create` on an existing Display, `new` yielding the
address of no live surface; `AddRef` on a live surface; `Release` on a live surface whose
count is not 0. -/
def State.surfaceCallOk (s : State) : SurfaceCall → Bool
  | .Create display address _ _ _ => decide (display < s.heap.length) && (s.surfaces address).isNone
  | .AddRef a => (s.surfaces a).isSome
  | .Release a =>
    match s.surfaces a with
    | some f => f._refcount != 0
    | none => false

/-- The call does not increment a surface count that stands at `2 ^ 32 - 1`. -/
def State.surfaceNoWrap (s : State) : SurfaceCall → Bool
  | .AddRef a =>
    match s.surfaces a with
    | some f => f._refcount != 2 ^ 32 - 1
    | none => true
  | _ => true

/-- Every call of the history is one a client can make. -/
def State.surfaceCallsOk (s : State) : List SurfaceCall → Bool
  | [] => true
  | c :: cs => s.surfaceCallOk c && (s.surfaceCall c).surfaceCallsOk cs

/-- No call of the history wraps a surface count around. -/
def State.surfaceNeverWraps (s : State) : List SurfaceCall → Bool
  | [] => true
  | c :: cs => s.surfaceNoWrap c && (s.surfaceCall c).surfaceNeverWraps cs

/-- Number of `Display::Initialize` runs recorded so far. -/
def World.initializeRuns (w : World) : Nat := (w.trace.filter Event.isInitialize).length

/-- Number of `IProcess::Dispatch` calls recorded so far. -/
def World.dispatchCalls (w : World) : Nat := (w.trace.filter Event.isDispatch).length

/-- Number of `EssContextRunEventLoopOnce` calls recorded so far. -/
def World.eventLoopRuns (w : World) : Nat := (w.trace.filter Event.isRunEventLoopOnce).length

/-- Number of `EssContextResizeWindow` calls recorded so far. -/
def World.resizeRequests (w : World) : Nat := (w.trace.filter Event.isResizeWindow).length

/-- The calls `Instance(displayName)`, one for each given outcome of the allocation and of the
backend, in order. -/
def instanceCalls (displayName : String) (outcomes : List (Option Nat × InitEnv)) : List Call :=
  outcomes.map (fun o => Call.Instance displayName o.1 o.2)

/-- No `Instance` call of the history names "wayland-0", and `EssContextCreate` succeeds in
each of them. -/
def contextsCreated : List Call → Bool
  | [] => true
  | .Instance displayName _ env :: cs =>
    displayName != "wayland-0" && env.EssContextCreate.isSome && contextsCreated cs
  | .Release _ :: cs => contextsCreated cs

/-- Every count fits a `uint32_t`, and a Display whose count is 0 has a null handle. -/
def State.nullAtZero (s : State) : Prop :=
  ∀ (p : Nat) (d : Display), s.heap[p]? = some d →
    d._refCount < 2 ^ 32 ∧ (d._refCount = 0 → d._essCtx = none)

/-- No Display is named "wayland-0", and one whose count is at least 1 has a non-null handle. -/
def State.contextWhileHeld (s : State) : Prop :=
  ∀ (p : Nat) (d : Display), s.heap[p]? = some d →
    d._displayName ≠ "wayland-0" ∧ (1 ≤ d._refCount → d._essCtx ≠ none)

/-- No surface has been created yet: no live surface, every surface list empty. -/
def State.noSurfaces (s : State) : Prop :=
  (∀ a : Nat, s.surfaces a = none) ∧ (∀ d : Display, d ∈ s.heap → d._surfaces = [])

/-- The surface at address `a` is live and its parent is the Display at address `p`. -/
def State.liveIn (s : State) (a p : Nat) : Prop :=
  ∃ f : SurfaceImplementation, s.surfaces a = some f ∧ f._parent = p

/-- Every live surface has a count between 1 and 2 ^ 32 - 1 and an existing parent; the
surface list of every Display has no duplicates and holds exactly the live surfaces of
which the Display is the parent. -/
def State.surfacesRegistered (s : State) : Prop :=
  (∀ (a : Nat) (f : SurfaceImplementation), s.surfaces a = some f →
      1 ≤ f._refcount ∧ f._refcount < 2 ^ 32 ∧ f._parent < s.heap.length)
  ∧ (∀ (p : Nat) (d : Display), s.heap[p]? = some d →
      d._surfaces.Nodup ∧ ∀ a : Nat, a ∈ d._surfaces ↔ s.liveIn a p)

/-- A call of `Display::Register` or of `Display::Unregister`. -/
inductive ListCall where
  | Register (surface : Nat)
  | Unregister (surface : Nat)
  deriving DecidableEq, Repr

/-- The Display after one call on its surface list. -/
def Display.listCall (d : Display) : ListCall → Display
  | .Register a => d.Register a
  | .Unregister a => d.Unregister a

/-- The Display after a sequence of calls on its surface list. -/
def Display.listRun (d : Display) : List ListCall → Display
  | [] => d
  | c :: cs => (d.listCall c).listRun cs

/-- A call that leaves the translation unit: `getenv` or a function of the Essos backend. -/
def Event.isExternalCall : Event → Bool
  | .Initialize _ => false
  | .Deinitialize_ _ => false
  | .Dispatch => false
  | _ => true

/-- Every registry entry points at a Display on the heap that carries the entry's name. -/
def State.registryNamed (s : State) : Prop :=
  ∀ (displayName : String) (p : Nat), DisplayMap.find s._displays displayName = some p →
    ∃ d : Display, s.heap[p]? = some d ∧ d._displayName = displayName

/-- `Display::Surface::operator=`. A handle is its `_implementation` pointer: `this` is the
pointer held by the left handle, `rhs` the one held by the right handle (read after the
release, as in the source; the release does not write it, also when both are one object).
Returns the pointer the left handle holds afterwards. A call through a pointer to a deleted
surface is undefined in the source; `SurfaceImplementation.AddRef` and
`SurfaceImplementation.Release` leave the state unchanged there. -/
def Surface.operator_assign (s : State) (this rhs : Option Nat) : Option Nat × State :=
  let s :=
    match this with
    | some p => (SurfaceImplementation.Release s p).2
    | none => s
  let this := rhs
  let s :=
    match this with
    | some p => SurfaceImplementation.AddRef s p
    | none => s
  (this, s)

end Wayland
end WPEFramework

/-! # The device-info command line tool: `toHexString`

`Source/deviceinfo/device_info/main.c`. A `char` array is a function from indices to
characters; `uint32_t` arithmetic is reduced modulo `2 ^ 32`. -/

namespace DeviceInfo

/-- The digit `"%X"` prints for a value below 16: `0`-`9`, `A`-`F`. -/
def hexDigit (d : Nat) : Char :=
  if d < 10 then Char.ofNat (48 + d) else Char.ofNat (55 + d)

/-- The text the format `"%s0x%02X%s"` yields in iteration `i` for the byte `byte` (below
256): a newline (character 10) first when `(i % 8 == 0) && (i != 0)`, then `0x` and two hex
digits, then a comma and a blank unless `i == dataLength - 1`. -/
def formatByte (dataLength i byte : Nat) : List Char :=
  (if i % 8 = 0 ∧ i ≠ 0 then [Char.ofNat 10] else [])
    ++ ['0', 'x', hexDigit (byte / 16), hexDigit (byte % 16)]
    ++ (if i = (dataLength + 2 ^ 32 - 1) % 2 ^ 32 then [] else [',', ' '])

/-- Store the characters of a text in the array from index `offset` on. -/
def store (buf : Nat → Char) (offset : Nat) : List Char → Nat → Char
  | [] => buf
  | c :: cs => store (Function.update buf offset c) (offset + 1) cs

/-- Modelled from the C standard: `snprintf(&buf[offset], size, ...)` for a format that
expands to `text`. With `size` 0 nothing is written; otherwise the first `size - 1`
characters of the text and a terminating NUL are. The return value is the length of the
whole text, written or not. -/
def snprintf (buf : Nat → Char) (offset size : Nat) (text : List Char) : (Nat → Char) × Nat :=
  if size = 0 then (buf, text.length)
  else (store buf offset (text.take (size - 1) ++ [Char.ofNat 0]), text.length)

/-- The `for` loop of `toHexString`, with `remaining = dataLength - i` iterations to go.
The result is the array, `length`, and whether some `snprintf` call had less room than its
text and the NUL need. -/
def toHexStringLoop (data : Nat → Nat) (dataLength bufLength : Nat) :
    Nat → Nat → (Nat → Char) → Nat → Bool → (Nat → Char) × Nat × Bool
  | 0, _, buf, length, truncated => (buf, length, truncated)
  | remaining + 1, i, buf, length, truncated =>
    let size := (bufLength + 2 ^ 32 - length) % 2 ^ 32
    let text := formatByte dataLength i (data i % 256)
    let r := snprintf buf length size text
    toHexStringLoop data dataLength bufLength remaining (i + 1) r.1
      ((length + r.2) % 2 ^ 32) (truncated || decide (size ≤ text.length))

/-- What `toHexString` leaves behind: the array, `*bufLength`, whether a `snprintf` call
truncated, and whether the error line was printed. -/
structure HexResult where
  buf : Nat → Char
  bufLength : Nat
  truncated : Bool
  error : Bool

/-- `toHexString(data, dataLength, buf, bufLength)`. With `dataLength` of `2 ^ 31` or more
the `int` counter `i` overflows, which is undefined: `none`. -/
def toHexString (data : Nat → Nat) (dataLength : Nat) (buf : Nat → Char) (bufLength : Nat) :
    Option HexResult :=
  let totalLength := ((6 * dataLength) % 2 ^ 32 + dataLength / 8) % 2 ^ 32
  if bufLength ≥ totalLength then
    if dataLength < 2 ^ 31 then
      let r := toHexStringLoop data dataLength bufLength dataLength 0 buf 0 false
      some { buf := Function.update r.1 r.2.1 (Char.ofNat 0), bufLength := r.2.1,
             truncated := r.2.2, error := false }
    else none
  else some { buf := buf, bufLength := 0, truncated := false, error := true }

/-- The text the claim describes for the first `dataLength` bytes of `data`: each byte as
`0x` and two hex digits, a comma and a blank after every byte but the last, a newline before
every byte whose index is a non-zero multiple of 8. -/
def hexText (data : Nat → Nat) (dataLength : Nat) : List Char :=
  (List.range dataLength).flatMap (fun i =>
    (if i ≠ 0 ∧ i % 8 = 0 then [Char.ofNat 10] else [])
      ++ ['0', 'x', hexDigit (data i % 256 / 16), hexDigit (data i % 256 % 16)]
      ++ (if i + 1 < dataLength then [',', ' '] else []))

/-- The text the first `i` iterations of the loop of `toHexString` format. -/
def loopText (data : Nat → Nat) (dataLength i : Nat) : List Char :=
  (List.range i).flatMap (fun j => formatByte dataLength j (data j % 256))

/-- The first `n` characters of the array. -/
def contents (buf : Nat → Char) (n : Nat) : List Char := (List.range n).map buf

end DeviceInfo

namespace WPEFramework
namespace Wayland

/-! # Theorems -/

/-! ## Basic facts -/

theorem emit_trace (w : World) (e : Event) : (w.emit e).trace = w.trace ++ [e] := rfl

theorem InterlockedIncrement_lt (c : Nat) : InterlockedIncrement c < 2 ^ 32 :=
  Nat.mod_lt _ (by norm_num)

theorem InterlockedDecrement_lt (c : Nat) : InterlockedDecrement c < 2 ^ 32 :=
  Nat.mod_lt _ (by norm_num)

theorem InterlockedIncrement_of_lt (c : Nat) (h : c + 1 < 2 ^ 32) :
    InterlockedIncrement c = c + 1 :=
  Nat.mod_eq_of_lt h

theorem InterlockedDecrement_of_pos (c : Nat) (h1 : 1 ≤ c) (h2 : c < 2 ^ 32) :
    InterlockedDecrement c = c - 1 := by
  unfold InterlockedDecrement
  omega

/-! ## The size-change callback -/

/-- C8: when the reported size differs from the cached one, `displaySizeCb` issues exactly one
resize request, carrying the reported size, and caches that size; when it is equal, nothing
is requested and nothing changes. A repeated report requests nothing, and (640,480) followed
by (1280,720) requests exactly one resize to (1280,720) on the second report. -/
theorem displaySizeCb_requests_resize_iff_changed (w : World) (ctx : Option Nat)
    (width height : Int) :
    ((w.gDisplayWidth, w.gDisplayHeight) ≠ (width, height) →
      displaySizeCb w ctx width height =
        { w with gDisplayWidth := width, gDisplayHeight := height,
                 trace := w.trace ++ [Event.EssContextResizeWindow ctx width height] })
    ∧ ((w.gDisplayWidth, w.gDisplayHeight) = (width, height) →
      displaySizeCb w ctx width height = w)
    ∧ displaySizeCb (displaySizeCb w ctx width height) ctx width height =
        displaySizeCb w ctx width height
    ∧ (displaySizeCb (displaySizeCb w ctx 640 480) ctx 1280 720).trace =
        (displaySizeCb w ctx 640 480).trace ++ [Event.EssContextResizeWindow ctx 1280 720] := by
  refine ⟨?_, ?_, ?_, ?_⟩
  · intro h
    have h' : w.gDisplayWidth ≠ width ∨ w.gDisplayHeight ≠ height := by
      by_contra hc
      push_neg at hc
      exact h (by rw [hc.1, hc.2])
    simp [displaySizeCb, h', World.emit]
  · intro h
    have h1 : w.gDisplayWidth = width := congrArg Prod.fst h
    have h2 : w.gDisplayHeight = height := congrArg Prod.snd h
    simp [displaySizeCb, h1, h2]
  · by_cases h : w.gDisplayWidth ≠ width ∨ w.gDisplayHeight ≠ height
    · simp [displaySizeCb, h, World.emit]
    · simp [displaySizeCb, h]
  · by_cases h : w.gDisplayWidth ≠ 640 ∨ w.gDisplayHeight ≠ 480
    · simp [displaySizeCb, h, World.emit]
    · push_neg at h
      simp [displaySizeCb, h.1, h.2, World.emit]

/-- C8 at a concrete input: cache (0,0), reports (640,480), (640,480), (1280,720). -/
theorem displaySizeCb_requests_resize_iff_changed_witness :
    displaySizeCb World.fresh (some 7) 640 480 =
        ⟨"", 640, 480, [Event.EssContextResizeWindow (some 7) 640 480]⟩
    ∧ displaySizeCb (displaySizeCb World.fresh (some 7) 640 480) (some 7) 640 480 =
        displaySizeCb World.fresh (some 7) 640 480 :=
  ⟨(displaySizeCb_requests_resize_iff_changed World.fresh (some 7) 640 480).1 (by decide),
   (displaySizeCb_requests_resize_iff_changed World.fresh (some 7) 640 480).2.2.1⟩

/-! ## The keyboard sink of a surface -/

/-- C7: the assertion of `SurfaceImplementation::Keyboard(k)` passes exactly when one, and
only one, of "the surface has no sink" and "k is null" holds, and then the sink becomes k.
On a new surface attach, detach, attach passes three times; attaching over an attached sink
fails; detaching with no sink attached fails. -/
theorem Keyboard_assertion_alternates (this : SurfaceImplementation) (keyboard : Option Nat) :
    ((this.Keyboard keyboard).isSome ↔
      ((this._keyboard = none ∧ keyboard ≠ none) ∨ (this._keyboard ≠ none ∧ keyboard = none)))
    ∧ (∀ r, this.Keyboard keyboard = some r → r = { this with _keyboard := keyboard })
    ∧ (∀ (display : Nat) (name : String) (width height k1 k2 : Nat),
        (((SurfaceImplementation.new display name width height).Keyboard (some k1)).bind
          (fun f => f.Keyboard none)).bind (fun f => f.Keyboard (some k2)) =
        some { SurfaceImplementation.new display name width height with _keyboard := some k2 })
    ∧ (∀ k1 k2 : Nat, this._keyboard = some k1 → this.Keyboard (some k2) = none)
    ∧ (this._keyboard = none → this.Keyboard none = none) := by
  refine ⟨?_, ?_, ?_, ?_, ?_⟩
  · cases hk : this._keyboard <;> cases keyboard <;> simp [SurfaceImplementation.Keyboard, hk]
  · intro r hr
    unfold SurfaceImplementation.Keyboard at hr
    split at hr
    · exact (Option.some.inj hr).symm
    · exact absurd hr (by simp)
  · intro display name width height k1 k2
    simp [SurfaceImplementation.Keyboard, SurfaceImplementation.new]
  · intro k1 k2 h
    simp [SurfaceImplementation.Keyboard, h]
  · intro h
    simp [SurfaceImplementation.Keyboard, h]

/-- C7 at a concrete input: a new surface takes sink 5, and refuses sink 6 on top of it. -/
theorem Keyboard_assertion_alternates_witness :
    ((SurfaceImplementation.new 0 "s1" 640 480).Keyboard (some 5)).isSome = true
    ∧ ({ SurfaceImplementation.new 0 "s1" 640 480 with _keyboard := some 5 }
        : SurfaceImplementation).Keyboard (some 6) = none :=
  ⟨(Keyboard_assertion_alternates (SurfaceImplementation.new 0 "s1" 640 480) (some 5)).1.2
      (Or.inl ⟨rfl, by decide⟩),
   (Keyboard_assertion_alternates
      { SurfaceImplementation.new 0 "s1" 640 480 with _keyboard := some 5 }
      (some 6)).2.2.2.1 5 6 rfl⟩

/-! ## Release of a Display -/

/-- C5: on a Display whose count is c with 1 ≤ c, `Display::Release` leaves the count at
c - 1. When c = 1 it runs `Deinitialize` (the context is destroyed, the handle becomes null)
and returns `ERROR_CONNECTION_CLOSED`; when c ≠ 1 it returns `ERROR_NONE`, calls nothing and
leaves the handle as it was. -/
theorem Release_closes_iff_last (this : Display) (w : World)
    (h1 : 1 ≤ this._refCount) (h2 : this._refCount < 2 ^ 32) :
    (this.Release w).2.1._refCount = this._refCount - 1
    ∧ (this._refCount = 1 ↔ (this.Release w).1 = ErrorCode.ERROR_CONNECTION_CLOSED)
    ∧ (this._refCount = 1 ↔
        (this.Release w).2 = Display.Deinitialize_ { this with _refCount := 0 } w)
    ∧ (this._refCount = 1 →
        (this.Release w).2.1._essCtx = none
        ∧ (this.Release w).2.2.trace = w.trace ++
            [Event.Deinitialize_ this._displayName, Event.EssContextDestroy this._essCtx])
    ∧ (this._refCount ≠ 1 →
        (this.Release w).1 = ErrorCode.ERROR_NONE
        ∧ (this.Release w).2.1._essCtx = this._essCtx
        ∧ (this.Release w).2.2 = w) := by
  have hd : InterlockedDecrement this._refCount = this._refCount - 1 :=
    InterlockedDecrement_of_pos _ h1 h2
  by_cases hc : this._refCount = 1
  · have h0 : this._refCount - 1 = 0 := by omega
    have hr : this.Release w =
        (ErrorCode.ERROR_CONNECTION_CLOSED, Display.Deinitialize_ { this with _refCount := 0 } w) := by
      simp only [Display.Release, hd, h0, if_true]
    rw [hr]
    simp [Display.Deinitialize_, World.emit, hc]
  · have h0 : ¬ (this._refCount - 1 = 0) := by omega
    have hr : this.Release w =
        (ErrorCode.ERROR_NONE, { this with _refCount := this._refCount - 1 }, w) := by
      simp only [Display.Release, hd, h0, if_false]
    rw [hr]
    refine ⟨rfl, by simp [hc], ?_, fun h => absurd h hc, fun _ => ⟨rfl, rfl, rfl⟩⟩
    constructor
    · intro h; exact absurd h hc
    · intro h
      have h3 := congrArg (fun r => r.1._refCount) h
      simp only [Display.Deinitialize_] at h3
      exact absurd h3 h0

/-- C5 at a concrete input: the last reference of a Display that holds context 7. -/
theorem Release_closes_iff_last_witness :
    (Display.Release ⟨"display-A", some 7, [], 1⟩ World.fresh).2.1._refCount = 0
    ∧ (Display.Release ⟨"display-A", some 7, [], 1⟩ World.fresh).1
        = ErrorCode.ERROR_CONNECTION_CLOSED :=
  ⟨(Release_closes_iff_last ⟨"display-A", some 7, [], 1⟩ World.fresh (by decide)
      (by decide)).1,
   (Release_closes_iff_last ⟨"display-A", some 7, [], 1⟩ World.fresh (by decide)
      (by decide)).2.1.1 rfl⟩

/-! ## Pumping the event loop -/

/-- C9 (what the code does): on a Display whose context handle is null,
`Display::Process(data)` returns 0 and still calls `EssContextRunEventLoopOnce`, with the null
handle as argument; the call is not guarded as it is in `Display::Process(IProcess*)`. -/
theorem Process_calls_event_loop_with_null_handle (this : Display) (w : World) (data : Nat)
    (h : this._essCtx = none) :
    (this.Process w data).1 = 0
    ∧ (this.Process w data).2.trace = w.trace ++ [Event.EssContextRunEventLoopOnce none]
    ∧ (this.Process w data).2.eventLoopRuns = w.eventLoopRuns + 1 := by
  simp [Display.Process, World.emit, World.eventLoopRuns, h, List.filter_append,
    Event.isRunEventLoopOnce]

/-- C9 at the failing input: the Display left by `Instance("display-A")` when
`EssContextCreate` returns null, pumped with token 0. -/
theorem Process_calls_event_loop_with_null_handle_witness :
    (Display.Process ⟨"display-A", none, [], 1⟩ World.fresh 0).1 = 0
    ∧ (Display.Process ⟨"display-A", none, [], 1⟩ World.fresh 0).2.trace =
        [Event.EssContextRunEventLoopOnce none] :=
  ⟨(Process_calls_event_loop_with_null_handle ⟨"display-A", none, [], 1⟩ World.fresh 0 rfl).1,
   (Process_calls_event_loop_with_null_handle ⟨"display-A", none, [], 1⟩ World.fresh 0 rfl).2.1⟩

theorem dispatchCalls_emit (w : World) (e : Event) :
    (w.emit e).dispatchCalls = w.dispatchCalls + (if e.isDispatch then 1 else 0) := by
  cases h : e.isDispatch <;> simp [World.emit, World.dispatchCalls, List.filter_append, h]

theorem eventLoopRuns_emit (w : World) (e : Event) :
    (w.emit e).eventLoopRuns = w.eventLoopRuns + (if e.isRunEventLoopOnce then 1 else 0) := by
  cases h : e.isRunEventLoopOnce <;>
    simp [World.emit, World.eventLoopRuns, List.filter_append, h]

/-- C10: when the dispatcher answers true k times and then false, `Display::Process(IProcess*)`
returns (any bound of at least k + 1 `Dispatch` calls is enough), having called `Dispatch`
k + 1 times and `EssContextRunEventLoopOnce` k times if the context handle is non-null and
not at all if it is null; it has called nothing else. -/
theorem ProcessIProcess_dispatches_until_false {σ : Type} (this : Display)
    (Dispatch : σ → Bool × σ) (k : Nat) (processLoop : σ) (w : World) (fuel : Nat)
    (h : trueTimesThenFalse Dispatch k processLoop = true) (hfuel : k + 1 ≤ fuel) :
    ∃ r, this.ProcessIProcess Dispatch fuel processLoop w = some r
      ∧ r.2.dispatchCalls = w.dispatchCalls + (k + 1)
      ∧ r.2.eventLoopRuns = w.eventLoopRuns + (if this._essCtx = none then 0 else k)
      ∧ r.2.trace.length = w.trace.length + (k + 1) + (if this._essCtx = none then 0 else k) := by
  induction k generalizing processLoop w fuel with
  | zero =>
    obtain ⟨fuel, rfl⟩ : ∃ n, fuel = n + 1 := ⟨fuel - 1, by omega⟩
    have hd : (Dispatch processLoop).1 = false := by
      simpa [trueTimesThenFalse] using h
    refine ⟨((Dispatch processLoop).2, w.emit .Dispatch), ?_, ?_, ?_, ?_⟩
    · simp [Display.ProcessIProcess, hd]
    · simp [dispatchCalls_emit, Event.isDispatch]
    · simp [eventLoopRuns_emit, Event.isRunEventLoopOnce]
    · simp [World.emit]
  | succ k ih =>
    obtain ⟨fuel, rfl⟩ : ∃ n, fuel = n + 1 := ⟨fuel - 1, by omega⟩
    simp only [trueTimesThenFalse, Bool.and_eq_true] at h
    cases hc : this._essCtx with
    | none =>
      obtain ⟨r, hr, h1, h2, h3⟩ := ih (Dispatch processLoop).2 (w.emit .Dispatch) fuel h.2
        (by omega)
      refine ⟨r, ?_, ?_, ?_, ?_⟩
      · simpa [Display.ProcessIProcess, h.1, hc] using hr
      · rw [h1, dispatchCalls_emit]; simp [Event.isDispatch]; omega
      · rw [h2, eventLoopRuns_emit]; simp [Event.isRunEventLoopOnce, hc]
      · rw [h3]; simp [World.emit, hc]; omega
    | some ctx =>
      obtain ⟨r, hr, h1, h2, h3⟩ := ih (Dispatch processLoop).2
        ((w.emit .Dispatch).emit (.EssContextRunEventLoopOnce (some ctx))) fuel h.2 (by omega)
      refine ⟨r, ?_, ?_, ?_, ?_⟩
      · simpa [Display.ProcessIProcess, h.1, hc] using hr
      · rw [h1, dispatchCalls_emit, dispatchCalls_emit]; simp [Event.isDispatch]; omega
      · rw [h2, eventLoopRuns_emit, eventLoopRuns_emit]
        simp [Event.isRunEventLoopOnce, hc]; omega
      · rw [h3]; simp [World.emit, hc]; omega

/-- C10 at a concrete input: a countdown dispatcher started at 2 answers true twice, then
false; the Display holds context 7. -/
theorem ProcessIProcess_dispatches_until_false_witness :
    ∃ r, Display.ProcessIProcess ⟨"display-A", some 7, [], 1⟩
        (fun n : Nat => (decide (0 < n), n - 1)) 3 2 World.fresh = some r
      ∧ r.2.dispatchCalls = 3 ∧ r.2.eventLoopRuns = 2 := by
  obtain ⟨r, hr, h1, h2, _⟩ := ProcessIProcess_dispatches_until_false
    ⟨"display-A", some 7, [], 1⟩ (fun n : Nat => (decide (0 < n), n - 1)) 2 2 World.fresh 3
    (by decide) (by decide)
  exact ⟨r, hr, by simpa [World.dispatchCalls, World.fresh] using h1,
    by simpa [World.eventLoopRuns, World.fresh] using h2⟩

/-! ## The registry -/

theorem find_append (m : List (String × Nat)) (k key : String) (v : Nat) :
    DisplayMap.find (m ++ [(k, v)]) key =
      match DisplayMap.find m key with
      | some p => some p
      | none => if k = key then some v else none := by
  induction m with
  | nil => simp [DisplayMap.find]
  | cons e m ih =>
    obtain ⟨k', v'⟩ := e
    by_cases hk : k' = key
    · simp [DisplayMap.find, hk]
    · simp [DisplayMap.find, hk, ih]

theorem find_none_iff (m : List (String × Nat)) (key : String) :
    DisplayMap.find m key = none ↔ key ∉ m.map Prod.fst := by
  induction m with
  | nil => simp [DisplayMap.find]
  | cons e m ih =>
    obtain ⟨k', v'⟩ := e
    by_cases hk : k' = key
    · simp [DisplayMap.find, hk]
    · have hk' : ¬ key = k' := fun h => hk h.symm
      simp [DisplayMap.find, hk, hk', ih]

theorem AddRef_displays (s : State) (p : Nat) (env : InitEnv) :
    (s.AddRef p env)._displays = s._displays := by
  unfold State.AddRef
  cases s.heap[p]? <;> rfl

theorem AddRef_heap_length (s : State) (p : Nat) (env : InitEnv) :
    (s.AddRef p env).heap.length = s.heap.length := by
  unfold State.AddRef
  cases s.heap[p]? <;> simp

theorem AddRef_surfaces (s : State) (p : Nat) (env : InitEnv) :
    (s.AddRef p env).surfaces = s.surfaces := by
  unfold State.AddRef
  cases s.heap[p]? <;> rfl

theorem Release_displays (s : State) (p : Nat) : (s.Release p).2._displays = s._displays := by
  unfold State.Release
  cases s.heap[p]? <;> rfl

theorem Release_heap_length (s : State) (p : Nat) :
    (s.Release p).2.heap.length = s.heap.length := by
  unfold State.Release
  cases s.heap[p]? <;> simp

theorem Instance_of_some (s : State) (displayName : String) (uninit : Option Nat)
    (env : InitEnv) (p : Nat) (h : DisplayMap.find s._displays displayName = some p) :
    Display.Instance s displayName uninit env = (p, s.AddRef p env) := by
  simp [Display.Instance, h]

theorem Instance_of_none (s : State) (displayName : String) (uninit : Option Nat)
    (env : InitEnv) (h : DisplayMap.find s._displays displayName = none) :
    Display.Instance s displayName uninit env =
      (s.heap.length,
        State.AddRef { s with heap := s.heap ++ [Display.new displayName uninit],
                              _displays := s._displays ++ [(displayName, s.heap.length)] }
          s.heap.length env) := by
  simp [Display.Instance, h, DisplayMap.insert]

theorem Instance_find_self (s : State) (displayName : String) (uninit : Option Nat)
    (env : InitEnv) :
    DisplayMap.find (Display.Instance s displayName uninit env).2._displays displayName =
      some (Display.Instance s displayName uninit env).1 := by
  cases h : DisplayMap.find s._displays displayName with
  | some p => rw [Instance_of_some s _ _ _ p h]; simpa [AddRef_displays] using h
  | none => rw [Instance_of_none s _ _ _ h]; simp [AddRef_displays, find_append, h]

theorem call_find (s : State) (c : Call) (key : String) (p : Nat)
    (h : DisplayMap.find s._displays key = some p) :
    DisplayMap.find (s.call c)._displays key = some p := by
  cases c with
  | Instance displayName uninit env =>
    simp only [State.call]
    cases hf : DisplayMap.find s._displays displayName with
    | some q => rw [Instance_of_some s _ _ _ q hf]; simpa [AddRef_displays] using h
    | none => rw [Instance_of_none s _ _ _ hf]; simp [AddRef_displays, find_append, h]
  | Release q => simpa [State.call, Release_displays] using h

theorem run_find (calls : List Call) (s : State) (key : String) (p : Nat)
    (h : DisplayMap.find s._displays key = some p) :
    DisplayMap.find (s.run calls)._displays key = some p := by
  induction calls generalizing s with
  | nil => simpa [State.run] using h
  | cons c cs ih => exact ih (s.call c) (call_find s c key p h)

theorem call_keys_nodup (s : State) (c : Call) (h : (s._displays.map Prod.fst).Nodup) :
    ((s.call c)._displays.map Prod.fst).Nodup := by
  cases c with
  | Instance displayName uninit env =>
    simp only [State.call]
    cases hf : DisplayMap.find s._displays displayName with
    | some q => rw [Instance_of_some s _ _ _ q hf]; simpa [AddRef_displays] using h
    | none =>
      rw [Instance_of_none s _ _ _ hf]
      simp only [AddRef_displays, List.map_append, List.map_cons, List.map_nil]
      exact List.Nodup.append h (List.nodup_singleton _)
        (by simpa using (find_none_iff _ _).1 hf)
  | Release q => simpa [State.call, Release_displays] using h

theorem run_keys_nodup (calls : List Call) (s : State) (h : (s._displays.map Prod.fst).Nodup) :
    ((s.run calls)._displays.map Prod.fst).Nodup := by
  induction calls generalizing s with
  | nil => simpa [State.run] using h
  | cons c cs ih => exact ih (s.call c) (call_keys_nodup s c h)

/-! ## Initialize and AddRef on one Display -/

theorem Initialize_display (this : Display) (w : World) (env : InitEnv) :
    (this.Initialize w env).1 =
      if this._displayName = "wayland-0" then this
      else { this with _essCtx := env.EssContextCreate } := by
  unfold Display.Initialize
  by_cases hn : this._displayName = "wayland-0"
  · simp [hn]
  · simp only [hn, if_false]
    cases hc : env.EssContextCreate with
    | none => simp
    | some ctx => by_cases hs : env.EssContextStart <;> simp [hs]

theorem Initialize_initializeRuns (this : Display) (w : World) (env : InitEnv) :
    (this.Initialize w env).2.initializeRuns = w.initializeRuns + 1 := by
  unfold Display.Initialize
  by_cases hn : this._displayName = "wayland-0"
  · simp [hn, World.emit, World.initializeRuns, List.filter_append, Event.isInitialize]
  · simp only [hn, if_false]
    cases hc : env.EssContextCreate <;> cases hx : env.XDG_RUNTIME_DIR <;>
      by_cases hs : env.EssContextStart <;> by_cases hr : w._runtimeDir.isEmpty <;>
      simp [hs, hr, World.emit, World.initializeRuns, List.filter_append, Event.isInitialize]

theorem Display_AddRef_eq (this : Display) (w : World) (env : InitEnv) :
    this.AddRef w env =
      if InterlockedIncrement this._refCount = 1 then
        Display.Initialize { this with _refCount := InterlockedIncrement this._refCount } w env
      else ({ this with _refCount := InterlockedIncrement this._refCount }, w) := rfl

theorem Display_AddRef_refCount (this : Display) (w : World) (env : InitEnv) :
    (this.AddRef w env).1._refCount = InterlockedIncrement this._refCount := by
  rw [Display_AddRef_eq]
  split
  · rw [Initialize_display]; split <;> rfl
  · rfl

theorem Display_AddRef_displayName (this : Display) (w : World) (env : InitEnv) :
    (this.AddRef w env).1._displayName = this._displayName := by
  rw [Display_AddRef_eq]
  split
  · rw [Initialize_display]; split <;> rfl
  · rfl

theorem Display_AddRef_surfaces (this : Display) (w : World) (env : InitEnv) :
    (this.AddRef w env).1._surfaces = this._surfaces := by
  rw [Display_AddRef_eq]
  split
  · rw [Initialize_display]; split <;> rfl
  · rfl

theorem Display_AddRef_initializeRuns (this : Display) (w : World) (env : InitEnv) :
    (this.AddRef w env).2.initializeRuns =
      w.initializeRuns + (if InterlockedIncrement this._refCount = 1 then 1 else 0) := by
  rw [Display_AddRef_eq]
  split
  · rw [Initialize_initializeRuns]
  · rfl

theorem Display_AddRef_world_of_ne (this : Display) (w : World) (env : InitEnv)
    (h : InterlockedIncrement this._refCount ≠ 1) : (this.AddRef w env).2 = w := by
  rw [Display_AddRef_eq, if_neg h]

theorem AddRef_of_some (s : State) (p : Nat) (env : InitEnv) (d : Display)
    (h : s.heap[p]? = some d) :
    s.AddRef p env =
      { s with heap := s.heap.set p (d.AddRef s.world env).1, world := (d.AddRef s.world env).2 } := by
  simp [State.AddRef, h]

theorem AddRef_heap_get (s : State) (p : Nat) (env : InitEnv) (q : Nat) :
    (s.AddRef p env).heap[q]? =
      if q = p then (s.heap[p]?).map (fun d => (d.AddRef s.world env).1) else s.heap[q]? := by
  unfold State.AddRef
  cases h : s.heap[p]? with
  | none =>
    by_cases hq : q = p
    · simp [hq, h]
    · simp [hq]
  | some d =>
    have hp : p < s.heap.length := by
      by_contra hlt
      rw [List.getElem?_eq_none (by omega)] at h
      exact absurd h (by simp)
    by_cases hq : q = p
    · subst hq; simp [List.getElem?_set, hp]
    · have hq' : ¬ p = q := fun e => hq e.symm
      simp [List.getElem?_set, hq, hq']

theorem Release_of_some (s : State) (p : Nat) (d : Display) (h : s.heap[p]? = some d) :
    s.Release p = ((d.Release s.world).1,
      { s with heap := s.heap.set p (d.Release s.world).2.1,
               world := (d.Release s.world).2.2 }) := by
  simp [State.Release, h]

theorem Release_heap_get (s : State) (p : Nat) (q : Nat) :
    (s.Release p).2.heap[q]? =
      if q = p then (s.heap[p]?).map (fun d => (d.Release s.world).2.1) else s.heap[q]? := by
  unfold State.Release
  cases h : s.heap[p]? with
  | none =>
    by_cases hq : q = p
    · simp [hq, h]
    · simp [hq]
  | some d =>
    have hp : p < s.heap.length := by
      by_contra hlt
      rw [List.getElem?_eq_none (by omega)] at h
      exact absurd h (by simp)
    by_cases hq : q = p
    · subst hq; simp [List.getElem?_set, hp]
    · have hq' : ¬ p = q := fun e => hq e.symm
      simp [List.getElem?_set, hq, hq']

/-! ## Instance: lookup or construct-and-insert -/

/-- C3: `Display::Instance(name)` returns the Display registered under the name when there is
an entry, leaving registry and heap size as they are; without an entry it constructs one
Display named `name` and appends one entry for it. The names of the registry stay pairwise
distinct, in every state reachable from process start; and a later `Instance(name)`, whatever
calls lie in between, returns the same Display. -/
theorem Instance_returns_registered_or_inserts (s : State) (displayName : String)
    (uninit : Option Nat) (env : InitEnv) :
    (∀ p, DisplayMap.find s._displays displayName = some p →
        (Display.Instance s displayName uninit env).1 = p
        ∧ (Display.Instance s displayName uninit env).2._displays = s._displays
        ∧ (Display.Instance s displayName uninit env).2.heap.length = s.heap.length)
    ∧ (DisplayMap.find s._displays displayName = none →
        (Display.Instance s displayName uninit env).1 = s.heap.length
        ∧ (Display.Instance s displayName uninit env).2._displays =
            s._displays ++ [(displayName, s.heap.length)]
        ∧ (Display.Instance s displayName uninit env).2.heap.length = s.heap.length + 1
        ∧ (∃ d, (Display.Instance s displayName uninit env).2.heap[s.heap.length]? = some d
            ∧ d._displayName = displayName)
        ∧ (∀ q, q < s.heap.length →
            (Display.Instance s displayName uninit env).2.heap[q]? = s.heap[q]?))
    ∧ ((s._displays.map Prod.fst).Nodup →
        ((Display.Instance s displayName uninit env).2._displays.map Prod.fst).Nodup)
    ∧ (∀ calls : List Call, ((State.fresh.run calls)._displays.map Prod.fst).Nodup)
    ∧ (∀ (calls : List Call) (uninit2 : Option Nat) (env2 : InitEnv),
        (Display.Instance ((Display.Instance s displayName uninit env).2.run calls)
            displayName uninit2 env2).1 = (Display.Instance s displayName uninit env).1) := by
  refine ⟨?_, ?_, ?_, ?_, ?_⟩
  · intro p h
    rw [Instance_of_some s _ _ _ p h]
    exact ⟨rfl, AddRef_displays _ _ _, AddRef_heap_length _ _ _⟩
  · intro h
    rw [Instance_of_none s _ _ _ h]
    refine ⟨rfl, AddRef_displays _ _ _, ?_, ?_, ?_⟩
    · simp [AddRef_heap_length]
    · rw [AddRef_heap_get]
      simp [Display_AddRef_displayName, Display.new]
    · intro q hq
      rw [AddRef_heap_get]
      have hne : q ≠ s.heap.length := by omega
      simp [hne, List.getElem?_append_left hq]
  · intro h
    exact call_keys_nodup s (.Instance displayName uninit env) h
  · intro calls
    exact run_keys_nodup calls State.fresh (by simp [State.fresh])
  · intro calls uninit2 env2
    have h := run_find calls _ displayName _ (Instance_find_self s displayName uninit env)
    rw [Instance_of_some _ _ _ _ _ h]

/-- C3 at a concrete input: the second `Instance("display-A")` of a process. -/
theorem Instance_returns_registered_or_inserts_witness :
    (Display.Instance (Display.Instance State.fresh "display-A" none ⟨none, none, some 7, true⟩).2
        "display-A" none ⟨none, none, some 8, true⟩).1 = 0
    ∧ (Display.Instance (Display.Instance State.fresh "display-A" none ⟨none, none, some 7, true⟩).2
        "display-A" none ⟨none, none, some 8, true⟩).2._displays = [("display-A", 0)] :=
  ⟨((Instance_returns_registered_or_inserts
      (Display.Instance State.fresh "display-A" none ⟨none, none, some 7, true⟩).2
      "display-A" none ⟨none, none, some 8, true⟩).1 0 (by decide)).1,
   ((Instance_returns_registered_or_inserts
      (Display.Instance State.fresh "display-A" none ⟨none, none, some 7, true⟩).2
      "display-A" none ⟨none, none, some 8, true⟩).1 0 (by decide)).2.1⟩

/-! ## Release to zero and the registry -/

/-- C1 (as stated, refuted): after `Instance("display-A")` and the `Release` that takes the
count from 1 to 0, the registry still maps "display-A" to the Display at address 0, and the next
`Instance("display-A")` returns that address; the heap still holds one Display. -/
theorem Release_to_zero_keeps_entry_example :
    (∃ d, ((Display.Instance State.fresh "display-A" none
              ⟨none, none, some 7, true⟩).2.Release 0).2.heap[0]? = some d ∧ d._refCount = 0)
    ∧ ((Display.Instance State.fresh "display-A" none
          ⟨none, none, some 7, true⟩).2.Release 0).1 = ErrorCode.ERROR_CONNECTION_CLOSED
    ∧ DisplayMap.find ((Display.Instance State.fresh "display-A" none
          ⟨none, none, some 7, true⟩).2.Release 0).2._displays "display-A" ≠ none
    ∧ (Display.Instance ((Display.Instance State.fresh "display-A" none
          ⟨none, none, some 7, true⟩).2.Release 0).2 "display-A" none
          ⟨none, none, some 8, true⟩).1 = 0
    ∧ (Display.Instance ((Display.Instance State.fresh "display-A" none
          ⟨none, none, some 7, true⟩).2.Release 0).2 "display-A" none
          ⟨none, none, some 8, true⟩).2.heap.length = 1
    ∧ (Display.Instance ((Display.Instance State.fresh "display-A" none
          ⟨none, none, some 7, true⟩).2.Release 0).2 "display-A" none
          ⟨none, none, some 8, true⟩).2._displays = [("display-A", 0)] := by
  refine ⟨⟨⟨"display-A", none, [], 0⟩, by decide, rfl⟩, by decide, by decide, by decide,
    by decide, by decide⟩

/-- C1 (amended): the `Release` that takes a registered Display from count 1 to 0 runs
`Deinitialize` and returns `ERROR_CONNECTION_CLOSED`, and leaves the registry and the heap as
they are: the Display stays registered, with count 0 and a null handle. The next
`Instance` with the same name returns that same Display, constructs nothing, adds no entry,
takes the count back to 1 and runs `Initialize` once more. -/
theorem Release_to_zero_then_Instance_reuses (s : State) (displayName : String) (p : Nat)
    (d : Display) (uninit : Option Nat) (env : InitEnv)
    (hfind : DisplayMap.find s._displays displayName = some p)
    (hd : s.heap[p]? = some d) (hc : d._refCount = 1) :
    (s.Release p).1 = ErrorCode.ERROR_CONNECTION_CLOSED
    ∧ (s.Release p).2._displays = s._displays
    ∧ (s.Release p).2.heap.length = s.heap.length
    ∧ (s.Release p).2.heap[p]? = some { d with _refCount := 0, _essCtx := none }
    ∧ (Display.Instance (s.Release p).2 displayName uninit env).1 = p
    ∧ (Display.Instance (s.Release p).2 displayName uninit env).2._displays = s._displays
    ∧ (Display.Instance (s.Release p).2 displayName uninit env).2.heap.length = s.heap.length
    ∧ (∃ d1, (Display.Instance (s.Release p).2 displayName uninit env).2.heap[p]? = some d1
        ∧ d1._refCount = 1 ∧ d1._displayName = d._displayName)
    ∧ (Display.Instance (s.Release p).2 displayName uninit env).2.world.initializeRuns =
        (s.Release p).2.world.initializeRuns + 1 := by
  have hrel : d.Release s.world =
      (ErrorCode.ERROR_CONNECTION_CLOSED, Display.Deinitialize_ { d with _refCount := 0 } s.world) := by
    have h0 : InterlockedDecrement d._refCount = 0 := by rw [hc]; rfl
    simp only [Display.Release, h0, if_true]
  have hget : (s.Release p).2.heap[p]? = some { d with _refCount := 0, _essCtx := none } := by
    rw [Release_heap_get]
    simp [hd, hrel, Display.Deinitialize_]
  have hfind1 : DisplayMap.find (s.Release p).2._displays displayName = some p := by
    rw [Release_displays]; exact hfind
  have hinc : InterlockedIncrement 0 = 1 := rfl
  refine ⟨?_, Release_displays s p, Release_heap_length s p, hget, ?_, ?_, ?_, ?_, ?_⟩
  · rw [Release_of_some s p d hd, hrel]
  · rw [Instance_of_some _ _ _ _ p hfind1]
  · rw [Instance_of_some _ _ _ _ p hfind1]
    simp [AddRef_displays, Release_displays]
  · rw [Instance_of_some _ _ _ _ p hfind1]
    simp [AddRef_heap_length, Release_heap_length]
  · rw [Instance_of_some _ _ _ _ p hfind1]
    refine ⟨(Display.AddRef { d with _refCount := 0, _essCtx := none }
      (s.Release p).2.world env).1, ?_, ?_, ?_⟩
    · show ((s.Release p).2.AddRef p env).heap[p]? = _
      rw [AddRef_heap_get, if_pos rfl, hget]; rfl
    · rw [Display_AddRef_refCount]; rfl
    · rw [Display_AddRef_displayName]
  · rw [Instance_of_some _ _ _ _ p hfind1, AddRef_of_some _ _ _ _ hget]
    simp only []
    rw [Display_AddRef_initializeRuns]
    simp [hinc]

/-- C1 (amended) at a concrete input: "display-A" acquired once, released, acquired again. -/
theorem Release_to_zero_then_Instance_reuses_witness :
    ((Display.Instance State.fresh "display-A" none ⟨none, none, some 7, true⟩).2.Release 0).2._displays
        = [("display-A", 0)]
    ∧ (Display.Instance ((Display.Instance State.fresh "display-A" none
          ⟨none, none, some 7, true⟩).2.Release 0).2 "display-A" none
          ⟨none, none, some 8, true⟩).1 = 0 :=
  ⟨(Release_to_zero_then_Instance_reuses
      (Display.Instance State.fresh "display-A" none ⟨none, none, some 7, true⟩).2
      "display-A" 0 ⟨"display-A", some 7, [], 1⟩ none ⟨none, none, some 8, true⟩
      (by decide) (by decide) rfl).2.1,
   (Release_to_zero_then_Instance_reuses
      (Display.Instance State.fresh "display-A" none ⟨none, none, some 7, true⟩).2
      "display-A" 0 ⟨"display-A", some 7, [], 1⟩ none ⟨none, none, some 8, true⟩
      (by decide) (by decide) rfl).2.2.2.2.1⟩

/-! ## Consecutive Instance calls -/

theorem run_instances_registered (displayName : String) (outcomes : List (Option Nat × InitEnv))
    (s : State) (p : Nat) (d : Display)
    (hfind : DisplayMap.find s._displays displayName = some p)
    (hd : s.heap[p]? = some d) (hlt : d._refCount < 2 ^ 32) :
    ∃ d1, (s.run (instanceCalls displayName outcomes)).heap[p]? = some d1
      ∧ d1._refCount = (d._refCount + outcomes.length) % 2 ^ 32
      ∧ (s.run (instanceCalls displayName outcomes)).heap.length = s.heap.length
      ∧ (1 ≤ d._refCount → d._refCount + outcomes.length ≤ 2 ^ 32 →
          d1 = { d with _refCount := (d._refCount + outcomes.length) % 2 ^ 32 }
          ∧ (s.run (instanceCalls displayName outcomes)).world = s.world) := by
  induction outcomes generalizing s d with
  | nil =>
    have hmod : d._refCount % 2 ^ 32 = d._refCount := Nat.mod_eq_of_lt hlt
    refine ⟨d, by simpa [instanceCalls, State.run] using hd, ?_, rfl, ?_⟩
    · rw [List.length_nil, Nat.add_zero, hmod]
    · intro _ _
      rw [List.length_nil, Nat.add_zero, hmod]
      exact ⟨rfl, rfl⟩
  | cons o rest ih =>
    have hstep : s.call (Call.Instance displayName o.1 o.2) = s.AddRef p o.2 := by
      simp [State.call, Instance_of_some s _ _ _ p hfind]
    have hrun : s.run (instanceCalls displayName (o :: rest)) =
        (s.AddRef p o.2).run (instanceCalls displayName rest) := by
      simp [instanceCalls, State.run, hstep]
    have hfind1 : DisplayMap.find (s.AddRef p o.2)._displays displayName = some p := by
      rw [AddRef_displays]; exact hfind
    have hd1 : (s.AddRef p o.2).heap[p]? = some (d.AddRef s.world o.2).1 := by
      rw [AddRef_heap_get, if_pos rfl, hd]; rfl
    have hc1 : (d.AddRef s.world o.2).1._refCount = (d._refCount + 1) % 2 ^ 32 :=
      Display_AddRef_refCount d s.world o.2
    have hlt1 : (d.AddRef s.world o.2).1._refCount < 2 ^ 32 := by
      rw [hc1]; exact Nat.mod_lt _ (by norm_num)
    obtain ⟨d1, h1, h2, h3, h4⟩ := ih (s.AddRef p o.2) (d.AddRef s.world o.2).1 hfind1 hd1 hlt1
    rw [hrun]
    refine ⟨d1, h1, ?_, ?_, ?_⟩
    · rw [h2, hc1, List.length_cons]; omega
    · rw [h3, AddRef_heap_length]
    · intro hpos hle
      rw [List.length_cons] at hle
      have hne : InterlockedIncrement d._refCount ≠ 1 := by
        unfold InterlockedIncrement; omega
      have hadd : d.AddRef s.world o.2 =
          ({ d with _refCount := InterlockedIncrement d._refCount }, s.world) := by
        rw [Display_AddRef_eq, if_neg hne]
      have hw1 : (s.AddRef p o.2).world = s.world := by
        rw [AddRef_of_some s p o.2 d hd, hadd]
      by_cases hr : rest = []
      · subst hr
        simp only [instanceCalls, List.map_nil, State.run] at h1 ⊢
        rw [hd1, hadd] at h1
        refine ⟨?_, hw1⟩
        rw [← Option.some.inj h1]
        simp [InterlockedIncrement]
      · have hlen : 1 ≤ rest.length := by
          cases rest with
          | nil => exact absurd rfl hr
          | cons a l => simp
        have hinc : InterlockedIncrement d._refCount = d._refCount + 1 :=
          Nat.mod_eq_of_lt (by omega)
        have h5 := h4 (by rw [hc1]; unfold InterlockedIncrement at hinc; omega)
          (by rw [hc1]; unfold InterlockedIncrement at hinc; omega)
        refine ⟨?_, by rw [h5.2, hw1]⟩
        rw [h5.1, hadd, hinc, List.length_cons]
        have e : d._refCount + 1 + rest.length = d._refCount + (rest.length + 1) := by omega
        simp only [e]

theorem Instance_new_heap_get (s : State) (displayName : String) (uninit : Option Nat)
    (env : InitEnv) (h : DisplayMap.find s._displays displayName = none) :
    (Display.Instance s displayName uninit env).2.heap[s.heap.length]? =
      some (Display.AddRef (Display.new displayName uninit) s.world env).1 := by
  rw [Instance_of_none s _ _ _ h, AddRef_heap_get, if_pos rfl]
  simp

theorem Instance_new_world (s : State) (displayName : String) (uninit : Option Nat)
    (env : InitEnv) (h : DisplayMap.find s._displays displayName = none) :
    (Display.Instance s displayName uninit env).2.world =
      (Display.AddRef (Display.new displayName uninit) s.world env).2 := by
  rw [Instance_of_none s _ _ _ h]
  rw [AddRef_of_some _ _ _ (Display.new displayName uninit) (by simp)]

theorem run_instances_unregistered (displayName : String) (o : Option Nat × InitEnv)
    (rest : List (Option Nat × InitEnv)) (s : State)
    (hfind : DisplayMap.find s._displays displayName = none) :
    ∃ d1, (s.run (instanceCalls displayName (o :: rest))).heap[s.heap.length]? = some d1
      ∧ d1._refCount = (rest.length + 1) % 2 ^ 32
      ∧ (rest.length + 1 ≤ 2 ^ 32 →
          d1 = { (Display.AddRef (Display.new displayName o.1) s.world o.2).1 with
                 _refCount := (rest.length + 1) % 2 ^ 32 }
          ∧ (s.run (instanceCalls displayName (o :: rest))).world =
              (Display.Instance s displayName o.1 o.2).2.world) := by
  have hrun : s.run (instanceCalls displayName (o :: rest)) =
      (Display.Instance s displayName o.1 o.2).2.run (instanceCalls displayName rest) := by
    simp [instanceCalls, State.run, State.call]
  have hfind1 := Instance_find_self s displayName o.1 o.2
  have hres : (Display.Instance s displayName o.1 o.2).1 = s.heap.length := by
    rw [Instance_of_none s _ _ _ hfind]
  rw [hres] at hfind1
  have hd1 := Instance_new_heap_get s displayName o.1 o.2 hfind
  have hc1 : (Display.AddRef (Display.new displayName o.1) s.world o.2).1._refCount = 1 := by
    rw [Display_AddRef_refCount]; rfl
  obtain ⟨d1, h1, h2, _, h4⟩ := run_instances_registered displayName rest _ _ _ hfind1 hd1
    (by rw [hc1]; norm_num)
  rw [hrun]
  rw [hc1] at h2 h4
  have e : 1 + rest.length = rest.length + 1 := by omega
  rw [e] at h2 h4
  exact ⟨d1, h1, h2, fun hle => h4 (le_refl 1) hle⟩

/-- C4 (as stated, refuted): 2 ^ 32 consecutive `Instance("display-A")` calls from process
start leave the Display with count 0, not 2 ^ 32: the count is a `uint32_t`. -/
theorem Instance_count_wraps_example :
    ∃ d, (State.fresh.run (instanceCalls "display-A"
        (List.replicate (2 ^ 32) (none, ⟨none, none, some 7, true⟩)))).heap[0]? = some d
      ∧ d._refCount = 0 ∧ d._refCount ≠ 2 ^ 32 := by
  have hrep : List.replicate (2 ^ 32) ((none : Option Nat), (⟨none, none, some 7, true⟩ : InitEnv)) =
      (none, ⟨none, none, some 7, true⟩) ::
        List.replicate (2 ^ 32 - 1) (none, ⟨none, none, some 7, true⟩) :=
    List.replicate_succ _ (2 ^ 32 - 1)
  obtain ⟨d, h1, h2, _⟩ := run_instances_unregistered "display-A"
    (none, ⟨none, none, some 7, true⟩)
    (List.replicate (2 ^ 32 - 1) (none, ⟨none, none, some 7, true⟩)) State.fresh rfl
  rw [List.length_replicate] at h2
  rw [hrep]
  exact ⟨d, h1, by rw [h2]; norm_num, by rw [h2]; norm_num⟩


/-- C4 (amended): every `Display::Instance(name)` call adds one to the count modulo 2 ^ 32
(the count is a `uint32_t`), the creating call included, and `Initialize` runs on exactly
the calls that find the count at 0. After n consecutive `Instance(name)` calls, 1 ≤ n < 2 ^ 32,
on a registry without an entry for the name, the count is n and `Initialize` has run exactly
once, during the first call: the later calls call nothing. -/
theorem Instance_counts_and_initializes_once (s : State) (displayName : String)
    (o : Option Nat × InitEnv) (rest : List (Option Nat × InitEnv)) :
    (∀ p d, DisplayMap.find s._displays displayName = some p → s.heap[p]? = some d →
        d._refCount < 2 ^ 32 →
        ∃ d1, (Display.Instance s displayName o.1 o.2).2.heap[p]? = some d1
          ∧ d1._refCount = (d._refCount + 1) % 2 ^ 32
          ∧ (Display.Instance s displayName o.1 o.2).2.world.initializeRuns =
              s.world.initializeRuns + (if d._refCount = 0 then 1 else 0))
    ∧ (DisplayMap.find s._displays displayName = none →
        ∃ d1, (Display.Instance s displayName o.1 o.2).2.heap[s.heap.length]? = some d1
          ∧ d1._refCount = 1
          ∧ (Display.Instance s displayName o.1 o.2).2.world.initializeRuns =
              s.world.initializeRuns + 1)
    ∧ (DisplayMap.find s._displays displayName = none → rest.length + 1 < 2 ^ 32 →
        ∃ d1, (s.run (instanceCalls displayName (o :: rest))).heap[s.heap.length]? = some d1
          ∧ d1._refCount = rest.length + 1
          ∧ (s.run (instanceCalls displayName (o :: rest))).world =
              (Display.Instance s displayName o.1 o.2).2.world
          ∧ (s.run (instanceCalls displayName (o :: rest))).world.initializeRuns =
              s.world.initializeRuns + 1) := by
  have hnew : DisplayMap.find s._displays displayName = none →
      (Display.Instance s displayName o.1 o.2).2.world.initializeRuns =
        s.world.initializeRuns + 1 := by
    intro h
    rw [Instance_new_world s _ _ _ h, Display_AddRef_initializeRuns]
    simp [Display.new, InterlockedIncrement]
  refine ⟨?_, ?_, ?_⟩
  · intro p d hfind hd hlt
    rw [Instance_of_some s _ _ _ p hfind]
    refine ⟨(d.AddRef s.world o.2).1, ?_, Display_AddRef_refCount d s.world o.2, ?_⟩
    · show (s.AddRef p o.2).heap[p]? = _
      rw [AddRef_heap_get, if_pos rfl, hd]; rfl
    · show (s.AddRef p o.2).world.initializeRuns = _
      rw [AddRef_of_some s p o.2 d hd]
      simp only []
      rw [Display_AddRef_initializeRuns]
      have hiff : InterlockedIncrement d._refCount = 1 ↔ d._refCount = 0 := by
        unfold InterlockedIncrement; omega
      simp only [hiff]
  · intro h
    refine ⟨_, Instance_new_heap_get s _ _ _ h, ?_, hnew h⟩
    rw [Display_AddRef_refCount]; rfl
  · intro h hn
    obtain ⟨d1, h1, h2, h3⟩ := run_instances_unregistered displayName o rest s h
    have h4 := h3 (by omega)
    refine ⟨d1, h1, ?_, h4.2, ?_⟩
    · rw [h2]; exact Nat.mod_eq_of_lt hn
    · rw [h4.2]; exact hnew h

/-- C4 (amended) at a concrete input: three `Instance("display-A")` calls from process start. -/
theorem Instance_counts_and_initializes_once_witness :
    ∃ d1, (State.fresh.run (instanceCalls "display-A"
        [(none, ⟨none, none, some 7, true⟩), (none, ⟨none, none, some 8, true⟩),
         (none, ⟨none, none, some 9, true⟩)])).heap[0]? = some d1
      ∧ d1._refCount = 3
      ∧ (State.fresh.run (instanceCalls "display-A"
        [(none, ⟨none, none, some 7, true⟩), (none, ⟨none, none, some 8, true⟩),
         (none, ⟨none, none, some 9, true⟩)])).world.initializeRuns = 1 := by
  obtain ⟨d1, h1, h2, _, h4⟩ := (Instance_counts_and_initializes_once State.fresh "display-A"
    (none, ⟨none, none, some 7, true⟩)
    [(none, ⟨none, none, some 8, true⟩), (none, ⟨none, none, some 9, true⟩)]).2.2
    (by decide) (by decide)
  exact ⟨d1, h1, h2, h4⟩

/-! ## Context handle and reference count -/

theorem Display_AddRef_essCtx (d : Display) (w : World) (env : InitEnv) :
    (d.AddRef w env).1._essCtx =
      if InterlockedIncrement d._refCount = 1 ∧ d._displayName ≠ "wayland-0"
      then env.EssContextCreate else d._essCtx := by
  rw [Display_AddRef_eq]
  by_cases h1 : InterlockedIncrement d._refCount = 1
  · rw [if_pos h1, Initialize_display]
    by_cases hn : d._displayName = "wayland-0"
    · simp [hn]
    · simp [hn, h1]
  · simp [h1]

theorem Display_Release_eq (d : Display) (w : World) :
    d.Release w =
      if InterlockedDecrement d._refCount = 0 then
        (ErrorCode.ERROR_CONNECTION_CLOSED,
          Display.Deinitialize_ { d with _refCount := InterlockedDecrement d._refCount } w)
      else (ErrorCode.ERROR_NONE, { d with _refCount := InterlockedDecrement d._refCount }, w) :=
  rfl

theorem Display_Release_refCount (d : Display) (w : World) :
    (d.Release w).2.1._refCount = InterlockedDecrement d._refCount := by
  rw [Display_Release_eq]
  by_cases h : InterlockedDecrement d._refCount = 0
  · rw [if_pos h]
    show InterlockedDecrement d._refCount = InterlockedDecrement d._refCount
    rfl
  · rw [if_neg h]

theorem Deinitialize_display (x : Display) (w : World) :
    (x.Deinitialize_ w).1 = { x with _essCtx := none } := rfl

theorem Display_Release_display (d : Display) (w : World) :
    (d.Release w).2.1 =
      if InterlockedDecrement d._refCount = 0 then
        { d with _refCount := InterlockedDecrement d._refCount, _essCtx := none }
      else { d with _refCount := InterlockedDecrement d._refCount } := by
  rw [Display_Release_eq]
  by_cases h : InterlockedDecrement d._refCount = 0
  · rw [if_pos h, if_pos h]
    exact Deinitialize_display _ w
  · rw [if_neg h, if_neg h]

theorem Display_Release_displayName (d : Display) (w : World) :
    (d.Release w).2.1._displayName = d._displayName := by
  rw [Display_Release_display]
  by_cases h : InterlockedDecrement d._refCount = 0
  · rw [if_pos h]
  · rw [if_neg h]

theorem Display_Release_essCtx (d : Display) (w : World) :
    (d.Release w).2.1._essCtx = if InterlockedDecrement d._refCount = 0 then none else d._essCtx := by
  rw [Display_Release_display]
  by_cases h : InterlockedDecrement d._refCount = 0
  · rw [if_pos h, if_pos h]
  · rw [if_neg h, if_neg h]

/-- Where a Display found on the heap after one call comes from. -/
theorem call_heap_cases (s : State) (c : Call) (q : Nat) (d1 : Display)
    (h : (s.call c).heap[q]? = some d1) :
    s.heap[q]? = some d1
    ∨ (∃ displayName uninit env, c = Call.Instance displayName uninit env
        ∧ DisplayMap.find s._displays displayName = none
        ∧ d1 = (Display.AddRef (Display.new displayName uninit) s.world env).1)
    ∨ (∃ displayName uninit env d, c = Call.Instance displayName uninit env
        ∧ DisplayMap.find s._displays displayName = some q
        ∧ s.heap[q]? = some d ∧ d1 = (d.AddRef s.world env).1)
    ∨ (∃ d, c = Call.Release q ∧ s.heap[q]? = some d ∧ d1 = (d.Release s.world).2.1) := by
  cases c with
  | Instance displayName uninit env =>
    simp only [State.call] at h
    cases hf : DisplayMap.find s._displays displayName with
    | none =>
      rw [Instance_of_none s _ _ _ hf, AddRef_heap_get] at h
      by_cases hq : q = s.heap.length
      · right; left
        refine ⟨displayName, uninit, env, rfl, hf, ?_⟩
        simp [hq] at h
        exact h.symm
      · left
        simp only [hq, if_false] at h
        by_cases hlt : q < s.heap.length
        · rwa [List.getElem?_append_left hlt] at h
        · rw [List.getElem?_eq_none (by simp; omega)] at h
          exact absurd h (by simp)
    | some p =>
      rw [Instance_of_some s _ _ _ p hf] at h
      change (s.AddRef p env).heap[q]? = some d1 at h
      rw [AddRef_heap_get] at h
      by_cases hq : q = p
      · subst hq
        simp only [if_true] at h
        cases hd : s.heap[q]? with
        | none => rw [hd] at h; exact absurd h (by simp)
        | some d =>
          rw [hd] at h
          right; right; left
          exact ⟨displayName, uninit, env, d, rfl, hf, rfl, (Option.some.inj h).symm⟩
      · left; simpa [hq] using h
  | Release p =>
    simp only [State.call] at h
    rw [Release_heap_get] at h
    by_cases hq : q = p
    · subst hq
      simp only [if_true] at h
      cases hd : s.heap[q]? with
      | none => rw [hd] at h; exact absurd h (by simp)
      | some d =>
        rw [hd] at h
        right; right; right
        exact ⟨d, rfl, rfl, (Option.some.inj h).symm⟩
    · left; simpa [hq] using h

theorem call_nullAtZero (s : State) (c : Call) (hinv : s.nullAtZero)
    (hw : s.noWrap c = true) : (s.call c).nullAtZero := by
  intro q d1 h
  rcases call_heap_cases s c q d1 h with h0 | ⟨n, u, e, _, _, hd1⟩ | ⟨n, u, e, d, hc, hf, hd, hd1⟩ |
    ⟨d, _, hd, hd1⟩
  · exact hinv q d1 h0
  · rw [hd1, Display_AddRef_refCount]
    have h1 : InterlockedIncrement (Display.new n u)._refCount = 1 := rfl
    rw [h1]
    exact ⟨by norm_num, fun h0 => absurd h0 (by norm_num)⟩
  · rw [hd1, Display_AddRef_refCount]
    refine ⟨InterlockedIncrement_lt _, fun h0 => ?_⟩
    have hlt := (hinv q d hd).1
    have hne : d._refCount ≠ 2 ^ 32 - 1 := by
      rw [hc] at hw
      simpa [State.noWrap, hf, hd] using hw
    unfold InterlockedIncrement at h0
    omega
  · rw [hd1, Display_Release_refCount, Display_Release_essCtx]
    refine ⟨InterlockedDecrement_lt _, fun h0 => ?_⟩
    rw [if_pos h0]

theorem run_nullAtZero (calls : List Call) (s : State) (hinv : s.nullAtZero)
    (hw : s.neverWraps calls = true) : (s.run calls).nullAtZero := by
  induction calls generalizing s with
  | nil => simpa [State.run] using hinv
  | cons c cs ih =>
    simp only [State.neverWraps, Bool.and_eq_true] at hw
    exact ih (s.call c) (call_nullAtZero s c hinv hw.1) hw.2

theorem contextsCreated_cons (c : Call) (cs : List Call)
    (h : contextsCreated (c :: cs) = true) :
    contextsCreated [c] = true ∧ contextsCreated cs = true := by
  cases c with
  | Instance n u e =>
    simp only [contextsCreated, Bool.and_eq_true] at h ⊢
    exact ⟨⟨h.1, trivial⟩, h.2⟩
  | Release p =>
    simp only [contextsCreated] at h ⊢
    exact ⟨trivial, h⟩

theorem call_contextWhileHeld (s : State) (c : Call) (hA : s.nullAtZero)
    (hB : s.contextWhileHeld) (hw : s.noWrap c = true) (hr : s.releaseOk c = true)
    (hc : contextsCreated [c] = true) : (s.call c).contextWhileHeld := by
  intro q d1 h
  rcases call_heap_cases s c q d1 h with h0 | ⟨n, u, e, hcall, _, hd1⟩ |
    ⟨n, u, e, d, hcall, hf, hd, hd1⟩ | ⟨d, hcall, hd, hd1⟩
  · exact hB q d1 h0
  · rw [hcall] at hc
    simp only [contextsCreated, Bool.and_eq_true, bne_iff_ne, ne_eq,
      Option.isSome_iff_ne_none] at hc
    have hname : (Display.new n u)._displayName ≠ "wayland-0" := hc.1.1
    have h1 : InterlockedIncrement (Display.new n u)._refCount = 1 := rfl
    rw [hd1]
    refine ⟨by rw [Display_AddRef_displayName]; exact hname, fun _ => ?_⟩
    rw [Display_AddRef_essCtx, if_pos ⟨h1, hname⟩]
    exact hc.1.2
  · rw [hcall] at hc hw
    simp only [contextsCreated, Bool.and_eq_true, bne_iff_ne, ne_eq,
      Option.isSome_iff_ne_none] at hc
    have hname := (hB q d hd).1
    rw [hd1]
    refine ⟨by rw [Display_AddRef_displayName]; exact hname, fun _ => ?_⟩
    rw [Display_AddRef_essCtx]
    by_cases h1 : InterlockedIncrement d._refCount = 1
    · rw [if_pos ⟨h1, hname⟩]; exact hc.1.2
    · rw [if_neg (fun hh => h1 hh.1)]
      have hlt := (hA q d hd).1
      have hne : d._refCount ≠ 2 ^ 32 - 1 := by
        simpa [State.noWrap, hf, hd] using hw
      apply (hB q d hd).2
      unfold InterlockedIncrement at h1
      omega
  · rw [hcall] at hr
    have hname := (hB q d hd).1
    have hlt := (hA q d hd).1
    have hne : d._refCount ≠ 0 := by
      simpa [State.releaseOk, hd] using hr
    rw [hd1, Display_Release_displayName, Display_Release_refCount, Display_Release_essCtx]
    refine ⟨hname, fun h1 => ?_⟩
    have hdec : InterlockedDecrement d._refCount ≠ 0 := by omega
    rw [if_neg hdec]
    exact (hB q d hd).2 (by omega)

theorem run_contextWhileHeld (calls : List Call) (s : State) (hA : s.nullAtZero)
    (hB : s.contextWhileHeld) (hw : s.neverWraps calls = true)
    (hr : s.neverReleasesAtZero calls = true) (hc : contextsCreated calls = true) :
    (s.run calls).contextWhileHeld := by
  induction calls generalizing s with
  | nil => simpa [State.run] using hB
  | cons c cs ih =>
    simp only [State.neverWraps, State.neverReleasesAtZero, Bool.and_eq_true] at hw hr
    have hcc := contextsCreated_cons c cs hc
    exact ih (s.call c) (call_nullAtZero s c hA hw.1)
      (call_contextWhileHeld s c hA hB hw.1 hr.1 hcc.1) hw.2 hr.2 hcc.2

theorem fresh_nullAtZero : State.fresh.nullAtZero := by
  intro p d h
  simp [State.fresh] at h

theorem fresh_contextWhileHeld : State.fresh.contextWhileHeld := by
  intro p d h
  simp [State.fresh] at h

/-- C2 (as stated, refuted), two histories from process start. After `Instance("display-A")`
with `EssContextCreate` returning null, the Display has count 1 and a null handle. After
2 ^ 32 calls of `Instance("display-A")` the count has wrapped to 0 and the handle is 7. -/
theorem handle_iff_count_fails_example :
    (∃ d, (State.fresh.run [Call.Instance "display-A" none ⟨none, none, none, false⟩]).heap[0]?
        = some d ∧ 1 ≤ d._refCount ∧ d._essCtx = none)
    ∧ (State.fresh.neverReleasesAtZero
        [Call.Instance "display-A" none ⟨none, none, none, false⟩] = true)
    ∧ (∃ d, (State.fresh.run (instanceCalls "display-A"
          (List.replicate (2 ^ 32) (none, ⟨none, none, some 7, true⟩)))).heap[0]? = some d
        ∧ d._refCount = 0 ∧ d._essCtx = some 7) := by
  refine ⟨⟨⟨"display-A", none, [], 1⟩, by decide, by decide, rfl⟩, by decide, ?_⟩
  have hrep : List.replicate (2 ^ 32) ((none : Option Nat), (⟨none, none, some 7, true⟩ : InitEnv)) =
      (none, ⟨none, none, some 7, true⟩) ::
        List.replicate (2 ^ 32 - 1) (none, ⟨none, none, some 7, true⟩) :=
    List.replicate_succ _ (2 ^ 32 - 1)
  obtain ⟨d, h1, h2, h3⟩ := run_instances_unregistered "display-A"
    (none, ⟨none, none, some 7, true⟩)
    (List.replicate (2 ^ 32 - 1) (none, ⟨none, none, some 7, true⟩)) State.fresh rfl
  rw [List.length_replicate] at h2 h3
  rw [hrep]
  refine ⟨d, h1, by rw [h2]; norm_num, ?_⟩
  rw [(h3 (by norm_num)).1]
  rfl


/-- C2 (amended): in every state reached from process start by `Instance` and `Release`
calls that never release a Display whose count is 0 and never increment a count standing
at 2 ^ 32 - 1, for every name and every backend outcome, a Display with a non-null context
handle has a count of at least 1. When moreover no call names "wayland-0" and
`EssContextCreate` succeeds in every `Instance` call, the handle is non-null if and only if
the count is at least 1. -/
theorem handle_nonnull_implies_held (calls : List Call) (p : Nat) (d : Display)
    (hr : State.fresh.neverReleasesAtZero calls = true)
    (hw : State.fresh.neverWraps calls = true)
    (hd : (State.fresh.run calls).heap[p]? = some d) :
    (d._essCtx ≠ none → 1 ≤ d._refCount)
    ∧ (contextsCreated calls = true → (d._essCtx ≠ none ↔ 1 ≤ d._refCount)) := by
  have hA := run_nullAtZero calls State.fresh fresh_nullAtZero hw p d hd
  have h1 : d._essCtx ≠ none → 1 ≤ d._refCount := by
    intro hne
    by_contra hlt
    exact hne (hA.2 (by omega))
  refine ⟨h1, fun hc => ⟨h1, ?_⟩⟩
  exact (run_contextWhileHeld calls State.fresh fresh_nullAtZero fresh_contextWhileHeld
    hw hr hc p d hd).2

/-- C2 (amended) at a concrete input: "display-A" acquired twice, released once. -/
theorem handle_nonnull_implies_held_witness :
    (State.fresh.run [Call.Instance "display-A" none ⟨none, none, some 7, true⟩,
        Call.Instance "display-A" none ⟨none, none, some 8, true⟩, Call.Release 0]).heap[0]?
      = some ⟨"display-A", some 7, [], 1⟩
    ∧ ((some 7 : Option Nat) ≠ none ↔ 1 ≤ 1) :=
  ⟨by decide,
   (handle_nonnull_implies_held
      [Call.Instance "display-A" none ⟨none, none, some 7, true⟩,
        Call.Instance "display-A" none ⟨none, none, some 8, true⟩, Call.Release 0]
      0 ⟨"display-A", some 7, [], 1⟩ (by decide) (by decide) (by decide)).2 (by decide)⟩

/-! ## Surfaces and the surface list of their Display -/

theorem onDisplay_heap_get (s : State) (p : Nat) (g : Display → Display) (q : Nat) :
    (s.onDisplay p g).heap[q]? = if q = p then (s.heap[p]?).map g else s.heap[q]? := by
  unfold State.onDisplay
  cases h : s.heap[p]? with
  | none =>
    by_cases hq : q = p
    · simp [hq, h]
    · simp [hq]
  | some d =>
    have hp : p < s.heap.length := by
      by_contra hlt
      rw [List.getElem?_eq_none (by omega)] at h
      exact absurd h (by simp)
    by_cases hq : q = p
    · subst hq; simp [List.getElem?_set, hp]
    · have hq' : ¬ p = q := fun e => hq e.symm
      simp [List.getElem?_set, hq, hq']

theorem onDisplay_heap_length (s : State) (p : Nat) (g : Display → Display) :
    (s.onDisplay p g).heap.length = s.heap.length := by
  unfold State.onDisplay
  cases s.heap[p]? <;> simp

theorem onDisplay_surfaces (s : State) (p : Nat) (g : Display → Display) :
    (s.onDisplay p g).surfaces = s.surfaces := by
  unfold State.onDisplay
  cases s.heap[p]? <;> rfl

theorem Create_surfaces (s : State) (this address : Nat) (name : String) (width height : Nat) :
    (Display.Create s this address name width height).2.surfaces =
      Function.update s.surfaces address
        (some (SurfaceImplementation.new this name width height)) := by
  simp only [Display.Create, onDisplay_surfaces]

theorem Create_heap_get (s : State) (this address : Nat) (name : String) (width height : Nat)
    (q : Nat) :
    (Display.Create s this address name width height).2.heap[q]? =
      if q = this then (s.heap[this]?).map (fun d => d.Register address) else s.heap[q]? := by
  simp only [Display.Create]
  rw [onDisplay_heap_get]

theorem Create_heap_length (s : State) (this address : Nat) (name : String)
    (width height : Nat) :
    (Display.Create s this address name width height).2.heap.length = s.heap.length := by
  simp only [Display.Create]
  rw [onDisplay_heap_length]

theorem liveIn_of_none (s : State) (a p : Nat) (h : s.surfaces a = none) : ¬ s.liveIn a p := by
  rintro ⟨f, hf, _⟩
  rw [h] at hf
  exact absurd hf (by simp)

theorem Create_liveIn (s : State) (this address : Nat) (name : String) (width height : Nat)
    (a p : Nat) :
    (Display.Create s this address name width height).2.liveIn a p ↔
      (a = address ∧ p = this) ∨ (a ≠ address ∧ s.liveIn a p) := by
  unfold State.liveIn
  rw [Create_surfaces]
  by_cases ha : a = address
  · subst ha
    rw [Function.update_same]
    constructor
    · rintro ⟨f, hf, hp⟩
      rw [← Option.some.inj hf] at hp
      exact Or.inl ⟨rfl, hp.symm⟩
    · rintro (⟨_, hp⟩ | ⟨hne, _⟩)
      · exact ⟨_, rfl, hp.symm⟩
      · exact absurd rfl hne
  · rw [Function.update_noteq ha]
    constructor
    · intro hl; exact Or.inr ⟨ha, hl⟩
    · rintro (⟨he, _⟩ | ⟨_, hl⟩)
      · exact absurd he ha
      · exact hl

theorem Register_surfaces_of_not_mem (d : Display) (a : Nat) (h : a ∉ d._surfaces) :
    (d.Register a)._surfaces = d._surfaces ++ [a] := by
  simp [Display.Register, h]

theorem Register_mem (d : Display) (a : Nat) : a ∈ (d.Register a)._surfaces := by
  by_cases h : a ∈ d._surfaces
  · simp [Display.Register, h]
  · simp [Display.Register, h]

theorem Unregister_surfaces (d : Display) (a : Nat) :
    (d.Unregister a)._surfaces = d._surfaces.erase a := by
  by_cases h : a ∈ d._surfaces
  · simp [Display.Unregister, h]
  · simp [Display.Unregister, h, List.erase_of_not_mem h]

theorem Create_surfacesRegistered (s : State) (this address : Nat) (name : String)
    (width height : Nat) (hinv : s.surfacesRegistered) (hthis : this < s.heap.length)
    (hfree : s.surfaces address = none) :
    (Display.Create s this address name width height).2.surfacesRegistered := by
  constructor
  · intro a f h
    rw [Create_surfaces] at h
    rw [Create_heap_length]
    by_cases ha : a = address
    · subst ha
      rw [Function.update_same] at h
      rw [← Option.some.inj h]
      exact ⟨le_refl 1, by norm_num [SurfaceImplementation.new], hthis⟩
    · rw [Function.update_noteq ha] at h
      exact hinv.1 a f h
  · intro p d1 h
    rw [Create_heap_get] at h
    by_cases hp : p = this
    · subst hp
      simp only [if_true] at h
      cases hd : s.heap[p]? with
      | none => rw [hd] at h; exact absurd h (by simp)
      | some d =>
        rw [hd] at h
        have hd1 : d1 = d.Register address := (Option.some.inj h).symm
        obtain ⟨hnodup, hmem⟩ := hinv.2 p d hd
        have hnot : address ∉ d._surfaces := fun hin =>
          liveIn_of_none s address p hfree ((hmem address).1 hin)
        rw [hd1, Register_surfaces_of_not_mem d address hnot]
        constructor
        · exact List.Nodup.append hnodup (List.nodup_singleton _) (by simpa using hnot)
        · intro a
          rw [Create_liveIn, List.mem_append, List.mem_singleton, hmem a]
          constructor
          · rintro (hl | he)
            · refine Or.inr ⟨?_, hl⟩
              rintro rfl
              exact liveIn_of_none s a p hfree hl
            · exact Or.inl ⟨he, rfl⟩
          · rintro (⟨he, _⟩ | ⟨_, hl⟩)
            · exact Or.inr he
            · exact Or.inl hl
    · simp only [hp, if_false] at h
      obtain ⟨hnodup, hmem⟩ := hinv.2 p d1 h
      refine ⟨hnodup, fun a => ?_⟩
      rw [Create_liveIn, hmem a]
      constructor
      · intro hl
        refine Or.inr ⟨?_, hl⟩
        rintro rfl
        exact liveIn_of_none s a p hfree hl
      · rintro (⟨_, he⟩ | ⟨_, hl⟩)
        · exact absurd he hp
        · exact hl

theorem Surface_AddRef_surfaces (s : State) (a : Nat) (f : SurfaceImplementation)
    (h : s.surfaces a = some f) :
    (SurfaceImplementation.AddRef s a).surfaces =
      Function.update s.surfaces a (some { f with _refcount := (f._refcount + 1) % 2 ^ 32 }) := by
  simp only [SurfaceImplementation.AddRef, h]

theorem Surface_AddRef_heap (s : State) (a : Nat) :
    (SurfaceImplementation.AddRef s a).heap = s.heap := by
  unfold SurfaceImplementation.AddRef
  cases s.surfaces a <;> rfl

theorem Surface_AddRef_of_none (s : State) (a : Nat) (h : s.surfaces a = none) :
    SurfaceImplementation.AddRef s a = s := by
  simp only [SurfaceImplementation.AddRef, h]

theorem Surface_Release_of_none (s : State) (a : Nat) (h : s.surfaces a = none) :
    (SurfaceImplementation.Release s a).2 = s := by
  simp only [SurfaceImplementation.Release, h]

theorem Surface_Release_last (s : State) (a : Nat) (f : SurfaceImplementation)
    (h : s.surfaces a = some f) (h0 : (f._refcount + 2 ^ 32 - 1) % 2 ^ 32 = 0) :
    (SurfaceImplementation.Release s a).2.surfaces = Function.update s.surfaces a none
    ∧ (SurfaceImplementation.Release s a).2.heap =
        (s.onDisplay f._parent (fun d => d.Unregister a)).heap := by
  simp only [SurfaceImplementation.Release, h, h0, if_true, onDisplay_surfaces, and_self]

theorem Surface_Release_more (s : State) (a : Nat) (f : SurfaceImplementation)
    (h : s.surfaces a = some f) (h0 : (f._refcount + 2 ^ 32 - 1) % 2 ^ 32 ≠ 0) :
    (SurfaceImplementation.Release s a).2.surfaces =
      Function.update s.surfaces a
        (some { f with _refcount := (f._refcount + 2 ^ 32 - 1) % 2 ^ 32 })
    ∧ (SurfaceImplementation.Release s a).2.heap = s.heap := by
  simp only [SurfaceImplementation.Release, h, h0, if_false, and_self]

theorem liveIn_update_some (s : State) (a0 : Nat) (f0 g : SurfaceImplementation)
    (h : s.surfaces a0 = some f0) (hp : g._parent = f0._parent) (a p : Nat) :
    (∃ f : SurfaceImplementation,
        Function.update s.surfaces a0 (some g) a = some f ∧ f._parent = p) ↔ s.liveIn a p := by
  unfold State.liveIn
  by_cases ha : a = a0
  · subst ha
    rw [Function.update_same, h]
    constructor
    · rintro ⟨f, hf, hfp⟩
      rw [← Option.some.inj hf, hp] at hfp
      exact ⟨f0, rfl, hfp⟩
    · rintro ⟨f, hf, hfp⟩
      rw [← Option.some.inj hf] at hfp
      exact ⟨g, rfl, hp.trans hfp⟩
  · rw [Function.update_noteq ha]

theorem Surface_AddRef_surfacesRegistered (s : State) (a0 : Nat) (hinv : s.surfacesRegistered)
    (hw : s.surfaceNoWrap (SurfaceCall.AddRef a0) = true) :
    (SurfaceImplementation.AddRef s a0).surfacesRegistered := by
  cases h : s.surfaces a0 with
  | none => rw [Surface_AddRef_of_none s a0 h]; exact hinv
  | some f0 =>
    have hne : f0._refcount ≠ 2 ^ 32 - 1 := by
      simpa [State.surfaceNoWrap, h] using hw
    obtain ⟨hpos, hlt, hpar⟩ := hinv.1 a0 f0 h
    constructor
    · intro a f hf
      rw [Surface_AddRef_surfaces s a0 f0 h] at hf
      rw [Surface_AddRef_heap]
      by_cases ha : a = a0
      · subst ha
        rw [Function.update_same] at hf
        rw [← Option.some.inj hf]
        refine ⟨?_, Nat.mod_lt _ (by norm_num), hpar⟩
        show 1 ≤ (f0._refcount + 1) % 2 ^ 32
        omega
      · rw [Function.update_noteq ha] at hf
        exact hinv.1 a f hf
    · intro p d hd
      rw [Surface_AddRef_heap] at hd
      obtain ⟨hnodup, hmem⟩ := hinv.2 p d hd
      refine ⟨hnodup, fun a => ?_⟩
      rw [hmem a]
      unfold State.liveIn
      rw [Surface_AddRef_surfaces s a0 f0 h]
      exact (liveIn_update_some s a0 f0
        { f0 with _refcount := (f0._refcount + 1) % 2 ^ 32 } h rfl a p).symm

theorem Surface_Release_surfacesRegistered (s : State) (a0 : Nat) (hinv : s.surfacesRegistered) :
    (SurfaceImplementation.Release s a0).2.surfacesRegistered := by
  cases h : s.surfaces a0 with
  | none => rw [Surface_Release_of_none s a0 h]; exact hinv
  | some f0 =>
    obtain ⟨hpos, hlt, hpar⟩ := hinv.1 a0 f0 h
    by_cases h0 : (f0._refcount + 2 ^ 32 - 1) % 2 ^ 32 = 0
    · obtain ⟨hs, hh⟩ := Surface_Release_last s a0 f0 h h0
      have hlive : ∀ a p, (SurfaceImplementation.Release s a0).2.liveIn a p ↔
          a ≠ a0 ∧ s.liveIn a p := by
        intro a p
        unfold State.liveIn
        rw [hs]
        by_cases ha : a = a0
        · subst ha
          rw [Function.update_same]
          constructor
          · rintro ⟨f, hf, _⟩; exact absurd hf (by simp)
          · rintro ⟨hne, _⟩; exact absurd rfl hne
        · rw [Function.update_noteq ha]
          exact ⟨fun hl => ⟨ha, hl⟩, fun hl => hl.2⟩
      constructor
      · intro a f hf
        rw [hs] at hf
        rw [hh, onDisplay_heap_length]
        by_cases ha : a = a0
        · subst ha
          rw [Function.update_same] at hf
          exact absurd hf (by simp)
        · rw [Function.update_noteq ha] at hf
          exact hinv.1 a f hf
      · intro p d1 hd1
        rw [hh, onDisplay_heap_get] at hd1
        by_cases hp : p = f0._parent
        · subst hp
          simp only [if_true] at hd1
          cases hd : s.heap[f0._parent]? with
          | none => rw [hd] at hd1; exact absurd hd1 (by simp)
          | some d =>
            rw [hd] at hd1
            have e : d1 = d.Unregister a0 := (Option.some.inj hd1).symm
            obtain ⟨hnodup, hmem⟩ := hinv.2 _ d hd
            rw [e, Unregister_surfaces]
            refine ⟨hnodup.erase a0, fun a => ?_⟩
            rw [hlive, hnodup.mem_erase_iff, hmem a]
        · simp only [hp, if_false] at hd1
          obtain ⟨hnodup, hmem⟩ := hinv.2 p d1 hd1
          refine ⟨hnodup, fun a => ?_⟩
          rw [hlive, hmem a]
          constructor
          · intro hl
            refine ⟨?_, hl⟩
            rintro rfl
            obtain ⟨f, hf, hfp⟩ := hl
            rw [h] at hf
            rw [← Option.some.inj hf] at hfp
            exact hp hfp.symm
          · exact fun hl => hl.2
    · obtain ⟨hs, hh⟩ := Surface_Release_more s a0 f0 h h0
      constructor
      · intro a f hf
        rw [hs] at hf
        rw [hh]
        by_cases ha : a = a0
        · subst ha
          rw [Function.update_same] at hf
          rw [← Option.some.inj hf]
          refine ⟨?_, Nat.mod_lt _ (by norm_num), hpar⟩
          show 1 ≤ (f0._refcount + 2 ^ 32 - 1) % 2 ^ 32
          omega
        · rw [Function.update_noteq ha] at hf
          exact hinv.1 a f hf
      · intro p d hd
        rw [hh] at hd
        obtain ⟨hnodup, hmem⟩ := hinv.2 p d hd
        refine ⟨hnodup, fun a => ?_⟩
        rw [hmem a]
        unfold State.liveIn
        rw [hs]
        exact (liveIn_update_some s a0 f0
          { f0 with _refcount := (f0._refcount + 2 ^ 32 - 1) % 2 ^ 32 } h rfl a p).symm

theorem noSurfaces_surfacesRegistered (s : State) (h : s.noSurfaces) : s.surfacesRegistered := by
  constructor
  · intro a f hf
    rw [h.1 a] at hf
    exact absurd hf (by simp)
  · intro p d hd
    rw [h.2 d (List.getElem?_mem hd)]
    refine ⟨List.nodup_nil, fun a => ?_⟩
    constructor
    · intro hin; exact absurd hin (List.not_mem_nil a)
    · intro hl; exact absurd hl (liveIn_of_none s a p (h.1 a))

theorem surfaceCall_surfacesRegistered (s : State) (c : SurfaceCall)
    (hinv : s.surfacesRegistered) (hok : s.surfaceCallOk c = true)
    (hw : s.surfaceNoWrap c = true) : (s.surfaceCall c).surfacesRegistered := by
  cases c with
  | Create display address name width height =>
    simp only [State.surfaceCallOk, Bool.and_eq_true, decide_eq_true_eq,
      Option.isNone_iff_eq_none] at hok
    exact Create_surfacesRegistered s display address name width height hinv hok.1 hok.2
  | AddRef a => exact Surface_AddRef_surfacesRegistered s a hinv hw
  | Release a => exact Surface_Release_surfacesRegistered s a hinv

theorem surfaceRun_surfacesRegistered (calls : List SurfaceCall) (s : State)
    (hinv : s.surfacesRegistered) (hok : s.surfaceCallsOk calls = true)
    (hw : s.surfaceNeverWraps calls = true) : (s.surfaceRun calls).surfacesRegistered := by
  induction calls generalizing s with
  | nil => exact hinv
  | cons c cs ih =>
    simp only [State.surfaceCallsOk, State.surfaceNeverWraps, Bool.and_eq_true] at hok hw
    exact ih (s.surfaceCall c) (surfaceCall_surfacesRegistered s c hinv hok.1 hw.1) hok.2 hw.2

theorem surfaceRun_addRefs (a : Nat) (n : Nat) (s : State) (f : SurfaceImplementation)
    (h : s.surfaces a = some f) (hlt : f._refcount < 2 ^ 32) :
    (∃ g, (s.surfaceRun (List.replicate n (SurfaceCall.AddRef a))).surfaces a = some g
        ∧ g._refcount = (f._refcount + n) % 2 ^ 32)
    ∧ (s.surfaceRun (List.replicate n (SurfaceCall.AddRef a))).heap = s.heap
    ∧ s.surfaceCallsOk (List.replicate n (SurfaceCall.AddRef a)) = true := by
  induction n generalizing s f with
  | zero =>
    refine ⟨⟨f, h, ?_⟩, rfl, rfl⟩
    rw [Nat.add_zero, Nat.mod_eq_of_lt hlt]
  | succ n ih =>
    have h1 : (SurfaceImplementation.AddRef s a).surfaces a =
        some { f with _refcount := (f._refcount + 1) % 2 ^ 32 } := by
      rw [Surface_AddRef_surfaces s a f h, Function.update_same]
    obtain ⟨⟨g, hg, hc⟩, hh, hok⟩ := ih (SurfaceImplementation.AddRef s a)
      { f with _refcount := (f._refcount + 1) % 2 ^ 32 } h1 (Nat.mod_lt _ (by norm_num))
    rw [List.replicate_succ]
    simp only [State.surfaceRun, State.surfaceCallsOk, State.surfaceCall, Bool.and_eq_true]
    refine ⟨⟨g, hg, ?_⟩, ?_, ⟨?_, hok⟩⟩
    · rw [hc]
      show ((f._refcount + 1) % 2 ^ 32 + n) % 2 ^ 32 = (f._refcount + (n + 1)) % 2 ^ 32
      omega
    · rw [hh, Surface_AddRef_heap]
    · simp [State.surfaceCallOk, h]

theorem surfaceRun_cons (s : State) (c : SurfaceCall) (cs : List SurfaceCall) :
    s.surfaceRun (c :: cs) = (s.surfaceCall c).surfaceRun cs := rfl

theorem surfaceCallsOk_cons (s : State) (c : SurfaceCall) (cs : List SurfaceCall) :
    s.surfaceCallsOk (c :: cs) = (s.surfaceCallOk c && (s.surfaceCall c).surfaceCallsOk cs) := rfl

/-- C6 (as stated, refuted): from the state left by `Instance("display-A")`, `Create` at
address 0 followed by 2 ^ 32 - 1 calls of `AddRef` on the surface (no `Release` at all)
leads to a state in which the surface is still in the Display's list while its count, a
`uint32_t`, has wrapped to 0. -/
theorem surface_count_wraps_example :
    (Display.Instance State.fresh "display-A" none ⟨none, none, some 7, true⟩).2.noSurfaces
    ∧ (Display.Instance State.fresh "display-A" none ⟨none, none, some 7, true⟩).2.surfaceCallsOk
        (SurfaceCall.Create 0 0 "s1" 640 480 ::
          List.replicate (2 ^ 32 - 1) (SurfaceCall.AddRef 0)) = true
    ∧ ∃ d f,
        ((Display.Instance State.fresh "display-A" none ⟨none, none, some 7, true⟩).2.surfaceRun
          (SurfaceCall.Create 0 0 "s1" 640 480 ::
            List.replicate (2 ^ 32 - 1) (SurfaceCall.AddRef 0))).heap[0]? = some d
        ∧ 0 ∈ d._surfaces
        ∧ ((Display.Instance State.fresh "display-A" none ⟨none, none, some 7, true⟩).2.surfaceRun
          (SurfaceCall.Create 0 0 "s1" 640 480 ::
            List.replicate (2 ^ 32 - 1) (SurfaceCall.AddRef 0))).surfaces 0 = some f
        ∧ f._refcount = 0 := by
  have hs1 : ((Display.Instance State.fresh "display-A" none
      ⟨none, none, some 7, true⟩).2.surfaceCall (SurfaceCall.Create 0 0 "s1" 640 480)).surfaces 0
      = some (SurfaceImplementation.new 0 "s1" 640 480) := by
    simp only [State.surfaceCall]
    rw [Create_surfaces, Function.update_same]
  have hh1 : ((Display.Instance State.fresh "display-A" none
      ⟨none, none, some 7, true⟩).2.surfaceCall (SurfaceCall.Create 0 0 "s1" 640 480)).heap
      = [⟨"display-A", some 7, [0], 1⟩] := by decide
  obtain ⟨⟨g, hg, hc⟩, hh, hok⟩ := surfaceRun_addRefs 0 (2 ^ 32 - 1) _ _ hs1 (by decide)
  refine ⟨⟨fun a => rfl, ?_⟩, ?_, ⟨"display-A", some 7, [0], 1⟩, g, ?_, by decide, ?_, ?_⟩
  · intro d hd
    have hheap : (Display.Instance State.fresh "display-A" none
        ⟨none, none, some 7, true⟩).2.heap = [⟨"display-A", some 7, [], 1⟩] := by decide
    rw [hheap, List.mem_singleton] at hd
    rw [hd]
  · rw [surfaceCallsOk_cons, Bool.and_eq_true]
    exact ⟨by decide, hok⟩
  · rw [surfaceRun_cons, hh, hh1]
    rfl
  · rw [surfaceRun_cons]
    exact hg
  · rw [hc]
    decide

/-- C6 (amended): start from a state without surfaces and make any `Display::Create`,
`SurfaceImplementation::AddRef` and `SurfaceImplementation::Release` calls a client can
make, never releasing a surface whose count is 0 and never incrementing a count that stands
at 2 ^ 32 - 1. Then the surface list of every Display has no duplicates and holds exactly
the live surfaces created through that Display, all with a count above 0; the surface
`Create` returns is in the list with count 1; and the `Release` that takes a count from 1
to 0 deletes the surface and leaves it in no surface list. -/
theorem surface_list_holds_live_surfaces (s0 : State) (calls : List SurfaceCall)
    (h0 : s0.noSurfaces) (hok : s0.surfaceCallsOk calls = true)
    (hw : s0.surfaceNeverWraps calls = true) :
    (∀ (p : Nat) (d : Display), (s0.surfaceRun calls).heap[p]? = some d →
        d._surfaces.Nodup
        ∧ ∀ a : Nat, a ∈ d._surfaces ↔
            ∃ f : SurfaceImplementation, (s0.surfaceRun calls).surfaces a = some f
              ∧ f._parent = p ∧ 0 < f._refcount)
    ∧ (∀ (a : Nat) (f : SurfaceImplementation), (s0.surfaceRun calls).surfaces a = some f →
        0 < f._refcount ∧ ∃ d : Display, (s0.surfaceRun calls).heap[f._parent]? = some d)
    ∧ (∀ (display address : Nat) (name : String) (width height : Nat),
        (s0.surfaceRun calls).surfaceCallOk
            (SurfaceCall.Create display address name width height) = true →
        (Display.Create (s0.surfaceRun calls) display address name width height).1 = address
        ∧ ∃ (d : Display) (f : SurfaceImplementation),
            (Display.Create (s0.surfaceRun calls) display address name width height).2.heap[display]?
              = some d
            ∧ address ∈ d._surfaces
            ∧ (Display.Create (s0.surfaceRun calls) display address name width height).2.surfaces
                address = some f
            ∧ f._refcount = 1 ∧ f._parent = display)
    ∧ (∀ (a : Nat) (f : SurfaceImplementation), (s0.surfaceRun calls).surfaces a = some f →
        f._refcount = 1 →
        (SurfaceImplementation.Release (s0.surfaceRun calls) a).2.surfaces a = none
        ∧ ∀ (p : Nat) (d : Display),
            (SurfaceImplementation.Release (s0.surfaceRun calls) a).2.heap[p]? = some d →
            a ∉ d._surfaces) := by
  have hinv := surfaceRun_surfacesRegistered calls s0 (noSurfaces_surfacesRegistered s0 h0) hok hw
  refine ⟨?_, ?_, ?_, ?_⟩
  · intro p d hd
    obtain ⟨hnodup, hmem⟩ := hinv.2 p d hd
    refine ⟨hnodup, fun a => ?_⟩
    rw [hmem a]
    constructor
    · rintro ⟨f, hf, hp⟩
      exact ⟨f, hf, hp, (hinv.1 a f hf).1⟩
    · rintro ⟨f, hf, hp, _⟩
      exact ⟨f, hf, hp⟩
  · intro a f hf
    obtain ⟨hpos, _, hpar⟩ := hinv.1 a f hf
    refine ⟨hpos, ?_⟩
    cases hd : (s0.surfaceRun calls).heap[f._parent]? with
    | some d => exact ⟨d, rfl⟩
    | none =>
      rw [List.getElem?_eq_none_iff] at hd
      omega
  · intro display address name width height hc
    simp only [State.surfaceCallOk, Bool.and_eq_true, decide_eq_true_eq,
      Option.isNone_iff_eq_none] at hc
    refine ⟨rfl, ?_⟩
    cases hd : (s0.surfaceRun calls).heap[display]? with
    | none =>
      rw [List.getElem?_eq_none_iff] at hd
      omega
    | some d =>
      refine ⟨d.Register address, SurfaceImplementation.new display name width height,
        ?_, Register_mem d address, ?_, rfl, rfl⟩
      · rw [Create_heap_get, if_pos rfl, hd]; rfl
      · rw [Create_surfaces, Function.update_same]
  · intro a f hf h1
    have h0 : (f._refcount + 2 ^ 32 - 1) % 2 ^ 32 = 0 := by rw [h1]; rfl
    have hs := (Surface_Release_last _ a f hf h0).1
    have hinv1 := Surface_Release_surfacesRegistered (s0.surfaceRun calls) a hinv
    have hnone : (SurfaceImplementation.Release (s0.surfaceRun calls) a).2.surfaces a = none := by
      rw [hs, Function.update_same]
    refine ⟨hnone, fun p d hd hin => ?_⟩
    exact liveIn_of_none _ a p hnone (((hinv1.2 p d hd).2 a).1 hin)

/-- C6 (amended) at a concrete input: on the Display left by `Instance("display-A")`, a
surface is created at address 0, referenced once more, and released once. -/
theorem surface_list_holds_live_surfaces_witness :
    ((Display.Instance State.fresh "display-A" none ⟨none, none, some 7, true⟩).2.surfaceRun
        [SurfaceCall.Create 0 0 "s1" 640 480, SurfaceCall.AddRef 0,
          SurfaceCall.Release 0]).heap[0]? = some ⟨"display-A", some 7, [0], 1⟩
    ∧ ([0] : List Nat).Nodup :=
  ⟨by decide,
   ((surface_list_holds_live_surfaces
      (Display.Instance State.fresh "display-A" none ⟨none, none, some 7, true⟩).2
      [SurfaceCall.Create 0 0 "s1" 640 480, SurfaceCall.AddRef 0, SurfaceCall.Release 0]
      ⟨fun _ => rfl, by decide⟩ (by decide) (by decide)).1 0
      ⟨"display-A", some 7, [0], 1⟩ (by decide)).1⟩

/-! ## Register and Unregister on the surface list -/

theorem Register_nodup (d : Display) (a : Nat) (h : d._surfaces.Nodup) :
    (d.Register a)._surfaces.Nodup := by
  by_cases ha : a ∈ d._surfaces
  · simpa [Display.Register, ha] using h
  · rw [Register_surfaces_of_not_mem d a ha]
    exact List.Nodup.append h (List.nodup_singleton _) (by simpa using ha)

theorem Unregister_nodup (d : Display) (a : Nat) (h : d._surfaces.Nodup) :
    (d.Unregister a)._surfaces.Nodup := by
  rw [Unregister_surfaces]
  exact h.erase a

theorem listRun_nodup (calls : List ListCall) (d : Display) (h : d._surfaces.Nodup) :
    (d.listRun calls)._surfaces.Nodup := by
  induction calls generalizing d with
  | nil => exact h
  | cons c cs ih =>
    cases c with
    | Register a => exact ih _ (Register_nodup d a h)
    | Unregister a => exact ih _ (Unregister_nodup d a h)

/-- C12: in every surface list reached from the empty list by `Display::Register` and
`Display::Unregister` calls there are no duplicates. `Register(a)` leaves the Display as it
is when `a` is in the list and otherwise appends `a` at the end; `Unregister(a)` leaves the
Display as it is when `a` is not in the list and otherwise removes `a`, keeping the others
in order. Doing either call twice is the same as doing it once. -/
theorem Register_Unregister_idempotent (d0 : Display) (calls : List ListCall) (a : Nat)
    (h0 : d0._surfaces = []) :
    (d0.listRun calls)._surfaces.Nodup
    ∧ (a ∈ (d0.listRun calls)._surfaces → (d0.listRun calls).Register a = d0.listRun calls)
    ∧ (a ∉ (d0.listRun calls)._surfaces →
        (d0.listRun calls).Register a =
          { d0.listRun calls with _surfaces := (d0.listRun calls)._surfaces ++ [a] })
    ∧ (a ∉ (d0.listRun calls)._surfaces → (d0.listRun calls).Unregister a = d0.listRun calls)
    ∧ (a ∈ (d0.listRun calls)._surfaces →
        (d0.listRun calls).Unregister a =
          { d0.listRun calls with
            _surfaces := (d0.listRun calls)._surfaces.filter (fun b => b != a) }
        ∧ a ∉ ((d0.listRun calls).Unregister a)._surfaces)
    ∧ ((d0.listRun calls).Register a).Register a = (d0.listRun calls).Register a
    ∧ ((d0.listRun calls).Unregister a).Unregister a = (d0.listRun calls).Unregister a := by
  have hnodup : (d0.listRun calls)._surfaces.Nodup :=
    listRun_nodup calls d0 (by rw [h0]; exact List.nodup_nil)
  generalize d0.listRun calls = d at hnodup ⊢
  have hreg : ∀ x : Display, a ∈ x._surfaces → x.Register a = x := by
    intro x hx; simp [Display.Register, hx]
  have hunreg : ∀ x : Display, a ∉ x._surfaces → x.Unregister a = x := by
    intro x hx; simp [Display.Unregister, hx]
  have herase : d._surfaces.erase a = d._surfaces.filter (fun b => b != a) :=
    hnodup.erase_eq_filter a
  refine ⟨hnodup, hreg d, ?_, hunreg d, ?_, hreg _ (Register_mem d a), ?_⟩
  · intro ha; simp [Display.Register, ha]
  · intro ha
    constructor
    · simp [Display.Unregister, ha, herase]
    · rw [Unregister_surfaces]
      exact fun hin => (hnodup.mem_erase_iff.1 hin).1 rfl
  · apply hunreg
    rw [Unregister_surfaces]
    exact fun hin => (hnodup.mem_erase_iff.1 hin).1 rfl

/-- C12 at a concrete input: surfaces 1, 2, 1 registered, 3 unregistered, then 2 handled. -/
theorem Register_Unregister_idempotent_witness :
    (Display.listRun (Display.new "display-A" none)
        [ListCall.Register 1, ListCall.Register 2, ListCall.Register 1,
          ListCall.Unregister 3])._surfaces = [1, 2]
    ∧ (Display.listRun (Display.new "display-A" none)
        [ListCall.Register 1, ListCall.Register 2, ListCall.Register 1,
          ListCall.Unregister 3]).Register 2 =
      Display.listRun (Display.new "display-A" none)
        [ListCall.Register 1, ListCall.Register 2, ListCall.Register 1,
          ListCall.Unregister 3] :=
  ⟨by decide,
   (Register_Unregister_idempotent (Display.new "display-A" none)
      [ListCall.Register 1, ListCall.Register 2, ListCall.Register 1, ListCall.Unregister 3]
      2 rfl).2.1 (by decide)⟩

/-! ## The sentinel display name -/
theorem Initialize_sentinel (d : Display) (w : World) (env : InitEnv)
    (h : d._displayName = "wayland-0") :
    d.Initialize w env = (d, w.emit (Event.Initialize "wayland-0")) := by
  simp only [Display.Initialize, h, if_true]

theorem AddRef_sentinel (d : Display) (w : World) (env : InitEnv)
    (h : d._displayName = "wayland-0") :
    d.AddRef w env =
      ({ d with _refCount := InterlockedIncrement d._refCount },
        if InterlockedIncrement d._refCount = 1 then w.emit (Event.Initialize "wayland-0")
        else w) := by
  rw [Display_AddRef_eq]
  by_cases h1 : InterlockedIncrement d._refCount = 1
  · rw [if_pos h1, if_pos h1]
    exact Initialize_sentinel _ w env h
  · rw [if_neg h1, if_neg h1]

theorem call_heap_forward (s : State) (c : Call) (p : Nat) (d : Display)
    (h : s.heap[p]? = some d) :
    ∃ d1, (s.call c).heap[p]? = some d1 ∧ d1._displayName = d._displayName := by
  have hp : p < s.heap.length := by
    by_contra hlt
    rw [List.getElem?_eq_none (by omega)] at h
    exact absurd h (by simp)
  cases c with
  | Instance displayName uninit env =>
    simp only [State.call]
    cases hf : DisplayMap.find s._displays displayName with
    | none =>
      rw [Instance_of_none s _ _ _ hf, AddRef_heap_get]
      have hne : p ≠ s.heap.length := by omega
      rw [if_neg hne]
      exact ⟨d, by rw [List.getElem?_append_left hp]; exact h, rfl⟩
    | some q =>
      rw [Instance_of_some s _ _ _ q hf]
      show ∃ d1, (s.AddRef q env).heap[p]? = some d1 ∧ _
      rw [AddRef_heap_get]
      by_cases hq : p = q
      · subst hq
        rw [if_pos rfl, h, Option.map_some']
        exact ⟨(d.AddRef s.world env).1, rfl, Display_AddRef_displayName d s.world env⟩
      · rw [if_neg hq]
        exact ⟨d, h, rfl⟩
  | Release q =>
    simp only [State.call]
    rw [Release_heap_get]
    by_cases hq : p = q
    · subst hq
      rw [if_pos rfl, h, Option.map_some']
      exact ⟨(d.Release s.world).2.1, rfl, Display_Release_displayName d s.world⟩
    · rw [if_neg hq]
      exact ⟨d, h, rfl⟩

theorem call_registryNamed (s : State) (c : Call) (hinv : s.registryNamed) :
    (s.call c).registryNamed := by
  intro key p hfind
  have hold : ∀ p0, DisplayMap.find s._displays key = some p0 →
      ∃ d : Display, (s.call c).heap[p0]? = some d ∧ d._displayName = key := by
    intro p0 h0
    obtain ⟨d, hd, hn⟩ := hinv key p0 h0
    obtain ⟨d1, hd1, hn1⟩ := call_heap_forward s c p0 d hd
    exact ⟨d1, hd1, hn1.trans hn⟩
  cases c with
  | Instance displayName uninit env =>
    cases hf : DisplayMap.find s._displays displayName with
    | some q =>
      have hdis : (s.call (Call.Instance displayName uninit env))._displays = s._displays := by
        simp only [State.call]
        rw [Instance_of_some s _ _ _ q hf]
        exact AddRef_displays _ _ _
      rw [hdis] at hfind
      exact hold p hfind
    | none =>
      have hdis : (s.call (Call.Instance displayName uninit env))._displays =
          s._displays ++ [(displayName, s.heap.length)] := by
        simp only [State.call]
        rw [Instance_of_none s _ _ _ hf]
        exact AddRef_displays _ _ _
      rw [hdis, find_append] at hfind
      cases hk : DisplayMap.find s._displays key with
      | some p0 =>
        rw [hk] at hfind
        have e : p0 = p := Option.some.inj hfind
        rw [← e]
        exact hold p0 hk
      | none =>
        rw [hk] at hfind
        by_cases hname : displayName = key
        · simp only [hname, if_true] at hfind
          have e : s.heap.length = p := Option.some.inj hfind
          rw [← e]
          simp only [State.call]
          rw [Instance_new_heap_get s displayName uninit env hf]
          exact ⟨_, rfl, (Display_AddRef_displayName _ _ _).trans hname⟩
        · simp only [hname, if_false] at hfind
          exact absurd hfind (by simp)
  | Release q =>
    have hdis : (s.call (Call.Release q))._displays = s._displays := Release_displays s q
    rw [hdis] at hfind
    exact hold p hfind

theorem run_registryNamed (calls : List Call) (s : State) (hinv : s.registryNamed) :
    (s.run calls).registryNamed := by
  induction calls generalizing s with
  | nil => exact hinv
  | cons c cs ih => exact ih (s.call c) (call_registryNamed s c hinv)

theorem fresh_registryNamed : State.fresh.registryNamed := by
  intro key p h
  simp [State.fresh, DisplayMap.find] at h

theorem emit_filter_not (w : World) (e : Event) (f : Event → Bool) (h : f e = false) :
    (w.emit e).trace.filter f = w.trace.filter f := by
  simp [World.emit, List.filter_append, h]

/-- C13: in every state reached from process start, `Display::Instance("wayland-0")` returns a
Display that the registry holds under that name, with its reference count incremented (1
for a new Display), and leaves its context handle as it was: `Display::Initialize`, when it
runs, returns at the name check, so the call makes no backend call, reads no environment
variable and leaves the cached runtime directory alone. -/
theorem Instance_sentinel_skips_setup (calls : List Call) (uninit : Option Nat)
    (env : InitEnv) :
    DisplayMap.find
        (Display.Instance (State.fresh.run calls) "wayland-0" uninit env).2._displays "wayland-0"
      = some (Display.Instance (State.fresh.run calls) "wayland-0" uninit env).1
    ∧ (∃ d : Display,
        (Display.Instance (State.fresh.run calls) "wayland-0" uninit env).2.heap[
          (Display.Instance (State.fresh.run calls) "wayland-0" uninit env).1]? = some d
        ∧ d._displayName = "wayland-0"
        ∧ (DisplayMap.find (State.fresh.run calls)._displays "wayland-0" = none →
            d._refCount = 1 ∧ d._essCtx = uninit)
        ∧ (∀ (p : Nat) (d0 : Display),
            DisplayMap.find (State.fresh.run calls)._displays "wayland-0" = some p →
            (State.fresh.run calls).heap[p]? = some d0 →
            d = { d0 with _refCount := InterlockedIncrement d0._refCount }))
    ∧ ((Display.Instance (State.fresh.run calls) "wayland-0" uninit env).2.world.trace =
          (State.fresh.run calls).world.trace
        ∨ (Display.Instance (State.fresh.run calls) "wayland-0" uninit env).2.world.trace =
          (State.fresh.run calls).world.trace ++ [Event.Initialize "wayland-0"])
    ∧ (Display.Instance (State.fresh.run calls) "wayland-0" uninit env).2.world.trace.filter
          Event.isExternalCall =
        (State.fresh.run calls).world.trace.filter Event.isExternalCall
    ∧ (Display.Instance (State.fresh.run calls) "wayland-0" uninit env).2.world._runtimeDir =
        (State.fresh.run calls).world._runtimeDir
    ∧ (∀ (d : Display) (w : World) (env1 : InitEnv), d._displayName = "wayland-0" →
        d.Initialize w env1 = (d, w.emit (Event.Initialize "wayland-0"))) := by
  have hinv := run_registryNamed calls State.fresh fresh_registryNamed
  generalize State.fresh.run calls = s at hinv ⊢
  refine ⟨Instance_find_self s "wayland-0" uninit env, ?_, ?_, ?_, ?_,
    fun d w env1 h => Initialize_sentinel d w env1 h⟩
  · cases hf : DisplayMap.find s._displays "wayland-0" with
    | none =>
      have hadd := AddRef_sentinel (Display.new "wayland-0" uninit) s.world env rfl
      have hres : (Display.Instance s "wayland-0" uninit env).1 = s.heap.length := by
        rw [Instance_of_none s _ _ _ hf]
      rw [hres]
      refine ⟨(Display.AddRef (Display.new "wayland-0" uninit) s.world env).1, ?_, ?_, ?_, ?_⟩
      · exact Instance_new_heap_get s "wayland-0" uninit env hf
      · rw [Display_AddRef_displayName]; rfl
      · intro _
        rw [hadd]
        exact ⟨rfl, rfl⟩
      · intro p d0 h
        exact absurd h (by simp)
    | some p =>
      obtain ⟨d0, hd0, hname⟩ := hinv "wayland-0" p hf
      have hadd := AddRef_sentinel d0 s.world env hname
      rw [Instance_of_some s _ _ _ p hf]
      refine ⟨(d0.AddRef s.world env).1, ?_, ?_, ?_, ?_⟩
      · show (s.AddRef p env).heap[p]? = _
        rw [AddRef_heap_get, if_pos rfl, hd0, Option.map_some']
      · rw [Display_AddRef_displayName]; exact hname
      · intro h
        exact absurd h (by simp)
      · intro p1 d1 h1 hd1
        have e1 : p = p1 := Option.some.inj h1
        rw [← e1, hd0] at hd1
        rw [← Option.some.inj hd1, hadd]
  all_goals
    cases hf : DisplayMap.find s._displays "wayland-0" with
    | none =>
      have hadd := AddRef_sentinel (Display.new "wayland-0" uninit) s.world env rfl
      have h1 : InterlockedIncrement (Display.new "wayland-0" uninit)._refCount = 1 := rfl
      rw [if_pos h1] at hadd
      rw [Instance_new_world s _ _ _ hf, hadd]
      first
        | exact Or.inr rfl
        | exact emit_filter_not _ _ _ rfl
        | rfl
    | some p =>
      obtain ⟨d0, hd0, hname⟩ := hinv "wayland-0" p hf
      have hadd := AddRef_sentinel d0 s.world env hname
      rw [Instance_of_some s _ _ _ p hf, AddRef_of_some s p env d0 hd0, hadd]
      by_cases h1 : InterlockedIncrement d0._refCount = 1
      · rw [if_pos h1]
        first
          | exact Or.inr rfl
          | exact emit_filter_not _ _ _ rfl
          | rfl
      · rw [if_neg h1] <;> exact Or.inl rfl

/-- C13 at a concrete input: the first call of a process, with an environment and a backend
that would both answer. -/
theorem Instance_sentinel_skips_setup_witness :
    DisplayMap.find (Display.Instance (State.fresh.run []) "wayland-0" (some 99)
        ⟨some "/run/user/0", some 1, some 7, true⟩).2._displays "wayland-0" = some 0
    ∧ (Display.Instance (State.fresh.run []) "wayland-0" (some 99)
        ⟨some "/run/user/0", some 1, some 7, true⟩).2.world.trace.filter
          Event.isExternalCall = [] :=
  ⟨(Instance_sentinel_skips_setup [] (some 99) ⟨some "/run/user/0", some 1, some 7, true⟩).1,
   (Instance_sentinel_skips_setup [] (some 99)
      ⟨some "/run/user/0", some 1, some 7, true⟩).2.2.2.1⟩

/-! ## Assignment of surface handles -/

theorem operator_assign_eq (s : State) (a b : Nat) :
    Surface.operator_assign s (some a) (some b) =
      (some b, SurfaceImplementation.AddRef (SurfaceImplementation.Release s a).2 b) := rfl

/-- Assigning a handle to itself, or to another handle of the same surface, when the
surface has a count of 1: the release deletes the surface before the handle acquires it
again, and the handle is left pointing at a deleted object. -/
theorem operator_assign_same_last (s : State) (a : Nat) (f : SurfaceImplementation)
    (h : s.surfaces a = some f) (h1 : f._refcount = 1) :
    (Surface.operator_assign s (some a) (some a)).1 = some a
    ∧ (Surface.operator_assign s (some a) (some a)).2.surfaces a = none := by
  have h0 : (f._refcount + 2 ^ 32 - 1) % 2 ^ 32 = 0 := by rw [h1]; rfl
  have hs := (Surface_Release_last s a f h h0).1
  have hnone : (SurfaceImplementation.Release s a).2.surfaces a = none := by
    rw [hs, Function.update_same]
  rw [operator_assign_eq]
  refine ⟨rfl, ?_⟩
  show (SurfaceImplementation.AddRef (SurfaceImplementation.Release s a).2 a).surfaces a = none
  rw [Surface_AddRef_of_none _ a hnone]
  exact hnone

/-- Assigning a handle to itself, or to another handle of the same surface, when the
surface has a count of at least 2: the surface stays live with the count it had, and no
surface list changes. -/
theorem operator_assign_same_shared (s : State) (a : Nat) (f : SurfaceImplementation)
    (h : s.surfaces a = some f) (h2 : 2 ≤ f._refcount) (hlt : f._refcount < 2 ^ 32) :
    (Surface.operator_assign s (some a) (some a)).1 = some a
    ∧ (∃ g, (Surface.operator_assign s (some a) (some a)).2.surfaces a = some g
        ∧ g._refcount = f._refcount ∧ g._parent = f._parent)
    ∧ (Surface.operator_assign s (some a) (some a)).2.heap = s.heap := by
  have h0 : (f._refcount + 2 ^ 32 - 1) % 2 ^ 32 ≠ 0 := by omega
  obtain ⟨hs, hh⟩ := Surface_Release_more s a f h h0
  have hlive : (SurfaceImplementation.Release s a).2.surfaces a =
      some { f with _refcount := (f._refcount + 2 ^ 32 - 1) % 2 ^ 32 } := by
    rw [hs, Function.update_same]
  rw [operator_assign_eq]
  refine ⟨rfl, ⟨{ f with _refcount := ((f._refcount + 2 ^ 32 - 1) % 2 ^ 32 + 1) % 2 ^ 32 },
    ?_, ?_, ?_⟩, ?_⟩
  · show (SurfaceImplementation.AddRef (SurfaceImplementation.Release s a).2 a).surfaces a = _
    rw [Surface_AddRef_surfaces _ a _ hlive, Function.update_same]
  · show ((f._refcount + 2 ^ 32 - 1) % 2 ^ 32 + 1) % 2 ^ 32 = f._refcount
    omega
  · rfl
  · show (SurfaceImplementation.AddRef (SurfaceImplementation.Release s a).2 a).heap = _
    rw [Surface_AddRef_heap, hh]

/-- C11 (what the code does at the failing input): on the Display left by
`Instance("display-A")` a surface is created at address 0, a handle takes a reference to it
and the creator releases its own, so the handle holds the only reference (count 1, surface
registered). Assigning the handle to itself then deletes the surface: it is no longer live,
it is gone from the Display's list, and the handle still holds its address. -/
theorem self_assignment_deletes_surface_example :
    (((Display.Instance State.fresh "display-A" none ⟨none, none, some 7, true⟩).2.surfaceRun
        [SurfaceCall.Create 0 0 "s1" 640 480, SurfaceCall.AddRef 0,
          SurfaceCall.Release 0]).surfaces 0).map (fun f => f._refcount) = some 1
    ∧ ((Display.Instance State.fresh "display-A" none ⟨none, none, some 7, true⟩).2.surfaceRun
        [SurfaceCall.Create 0 0 "s1" 640 480, SurfaceCall.AddRef 0,
          SurfaceCall.Release 0]).heap = [⟨"display-A", some 7, [0], 1⟩]
    ∧ (Surface.operator_assign
        ((Display.Instance State.fresh "display-A" none ⟨none, none, some 7, true⟩).2.surfaceRun
          [SurfaceCall.Create 0 0 "s1" 640 480, SurfaceCall.AddRef 0, SurfaceCall.Release 0])
        (some 0) (some 0)).1 = some 0
    ∧ (Surface.operator_assign
        ((Display.Instance State.fresh "display-A" none ⟨none, none, some 7, true⟩).2.surfaceRun
          [SurfaceCall.Create 0 0 "s1" 640 480, SurfaceCall.AddRef 0, SurfaceCall.Release 0])
        (some 0) (some 0)).2.surfaces 0 = none
    ∧ (Surface.operator_assign
        ((Display.Instance State.fresh "display-A" none ⟨none, none, some 7, true⟩).2.surfaceRun
          [SurfaceCall.Create 0 0 "s1" 640 480, SurfaceCall.AddRef 0, SurfaceCall.Release 0])
        (some 0) (some 0)).2.heap = [⟨"display-A", some 7, [], 1⟩] := by
  refine ⟨by decide, by decide, by decide, by decide, by decide⟩

theorem Surface_Release_surfaces_of_ne (s : State) (a b : Nat) (hne : b ≠ a) :
    (SurfaceImplementation.Release s a).2.surfaces b = s.surfaces b := by
  cases h : s.surfaces a with
  | none => rw [Surface_Release_of_none s a h]
  | some f =>
    by_cases h0 : (f._refcount + 2 ^ 32 - 1) % 2 ^ 32 = 0
    · rw [(Surface_Release_last s a f h h0).1, Function.update_noteq hne]
    · rw [(Surface_Release_more s a f h h0).1, Function.update_noteq hne]

/-- Assigning between handles of two different live surfaces: the left handle ends up
holding the right handle's surface, whose count has gone up by one; the surface it held
before has lost one reference and is deleted if that was its last; no other surface is
touched. -/
theorem operator_assign_distinct (s : State) (a b : Nat) (fa fb : SurfaceImplementation)
    (ha : s.surfaces a = some fa) (hb : s.surfaces b = some fb) (hne : a ≠ b)
    (ha1 : 1 ≤ fa._refcount) (ha2 : fa._refcount < 2 ^ 32) (hb2 : fb._refcount < 2 ^ 32 - 1) :
    (Surface.operator_assign s (some a) (some b)).1 = some b
    ∧ (Surface.operator_assign s (some a) (some b)).2.surfaces b =
        some { fb with _refcount := fb._refcount + 1 }
    ∧ (Surface.operator_assign s (some a) (some b)).2.surfaces a =
        (if fa._refcount = 1 then none else some { fa with _refcount := fa._refcount - 1 })
    ∧ (∀ c, c ≠ a → c ≠ b →
        (Surface.operator_assign s (some a) (some b)).2.surfaces c = s.surfaces c) := by
  have hb' : (SurfaceImplementation.Release s a).2.surfaces b = some fb := by
    rw [Surface_Release_surfaces_of_ne s a b (Ne.symm hne)]; exact hb
  have hadd := Surface_AddRef_surfaces _ b fb hb'
  have hmod : (fb._refcount + 1) % 2 ^ 32 = fb._refcount + 1 := Nat.mod_eq_of_lt (by omega)
  rw [hmod] at hadd
  rw [operator_assign_eq]
  refine ⟨rfl, ?_, ?_, ?_⟩
  · show (SurfaceImplementation.AddRef (SurfaceImplementation.Release s a).2 b).surfaces b = _
    rw [hadd, Function.update_same]
  · show (SurfaceImplementation.AddRef (SurfaceImplementation.Release s a).2 b).surfaces a = _
    rw [hadd, Function.update_noteq hne]
    by_cases h1 : fa._refcount = 1
    · have h0 : (fa._refcount + 2 ^ 32 - 1) % 2 ^ 32 = 0 := by omega
      rw [(Surface_Release_last s a fa ha h0).1, Function.update_same, if_pos h1]
    · have h0 : (fa._refcount + 2 ^ 32 - 1) % 2 ^ 32 ≠ 0 := by omega
      have hm : (fa._refcount + 2 ^ 32 - 1) % 2 ^ 32 = fa._refcount - 1 := by omega
      rw [(Surface_Release_more s a fa ha h0).1, Function.update_same, if_neg h1, hm]
  · intro c hca hcb
    show (SurfaceImplementation.AddRef (SurfaceImplementation.Release s a).2 b).surfaces c = _
    rw [hadd, Function.update_noteq hcb, Surface_Release_surfaces_of_ne s a c hca]

end Wayland
end WPEFramework

/-! # Theorems on `toHexString` -/

namespace DeviceInfo

theorem store_apply (text : List Char) (buf : Nat → Char) (offset k : Nat) :
    store buf offset text k =
      if k < offset then buf k else (text[k - offset]?).getD (buf k) := by
  induction text generalizing buf offset with
  | nil => simp [store]
  | cons c cs ih =>
    rw [store, ih]
    by_cases h1 : k < offset
    · have h2 : k < offset + 1 := by omega
      have h3 : k ≠ offset := by omega
      simp [h1, h2, Function.update_noteq h3]
    · by_cases h2 : k = offset
      · subst h2
        simp
      · have h3 : ¬ k < offset + 1 := by omega
        have h4 : k - offset = (k - (offset + 1)) + 1 := by omega
        rw [if_neg h3, if_neg h1, h4, List.getElem?_cons_succ, Function.update_noteq h2]

theorem formatByte_length (n i byte : Nat) (h1 : 1 ≤ n) (h2 : n < 2 ^ 32) :
    (formatByte n i byte).length =
      (if i % 8 = 0 ∧ i ≠ 0 then 1 else 0) + 4 + (if i = n - 1 then 0 else 2) := by
  have e : (n + 2 ^ 32 - 1) % 2 ^ 32 = n - 1 := by omega
  unfold formatByte
  rw [e]
  simp only [List.length_append]
  split_ifs <;> rfl

theorem loopText_succ (data : Nat → Nat) (n i : Nat) :
    loopText data n (i + 1) = loopText data n i ++ formatByte n i (data i % 256) := by
  unfold loopText
  rw [List.range_succ, List.flatMap_append, List.flatMap_singleton]

theorem loopText_length (data : Nat → Nat) (n i : Nat) (h1 : 1 ≤ n) (h2 : n < 2 ^ 32)
    (hi : i ≤ n) :
    (loopText data n i).length = 6 * i + (i - 1) / 8 - (if i = n then 2 else 0) := by
  induction i with
  | zero => simp [loopText]
  | succ i ih =>
    rw [loopText_succ, List.length_append, ih (by omega), formatByte_length n i _ h1 h2]
    have hne : ¬ i = n := by omega
    rw [if_neg hne]
    split_ifs <;> omega

theorem loopText_eq_hexText (data : Nat → Nat) (n : Nat) (h2 : n < 2 ^ 32) :
    loopText data n n = hexText data n := by
  unfold loopText hexText
  apply List.flatMap_congr
  intro i hi
  rw [List.mem_range] at hi
  have e : (n + 2 ^ 32 - 1) % 2 ^ 32 = n - 1 := by omega
  unfold formatByte
  rw [e]
  have hA : (if i % 8 = 0 ∧ i ≠ 0 then [Char.ofNat 10] else ([] : List Char)) =
      (if i ≠ 0 ∧ i % 8 = 0 then [Char.ofNat 10] else []) := by
    by_cases ha : i % 8 = 0 ∧ i ≠ 0
    · rw [if_pos ha, if_pos ⟨ha.2, ha.1⟩]
    · rw [if_neg ha, if_neg (fun hh => ha ⟨hh.2, hh.1⟩)]
  have hB : (if i = n - 1 then ([] : List Char) else [',', ' ']) =
      (if i + 1 < n then [',', ' '] else []) := by
    by_cases hc : i = n - 1
    · rw [if_pos hc, if_neg (by omega)]
    · rw [if_neg hc, if_pos (by omega)]
  rw [hA, hB]


theorem snprintf_of_room (buf : Nat → Char) (offset size : Nat) (text : List Char)
    (h : text.length < size) :
    snprintf buf offset size text = (store buf offset (text ++ [Char.ofNat 0]), text.length) := by
  have h0 : ¬ size = 0 := by omega
  have ht : text.take (size - 1) = text := List.take_of_length_le (by omega)
  unfold snprintf
  rw [if_neg h0, ht]

theorem toHexStringLoop_succ (data : Nat → Nat) (n cap k i : Nat) (buf : Nat → Char)
    (length : Nat) (t : Bool) :
    toHexStringLoop data n cap (k + 1) i buf length t =
      toHexStringLoop data n cap k (i + 1)
        (snprintf buf length ((cap + 2 ^ 32 - length) % 2 ^ 32)
          (formatByte n i (data i % 256))).1
        ((length + (snprintf buf length ((cap + 2 ^ 32 - length) % 2 ^ 32)
          (formatByte n i (data i % 256))).2) % 2 ^ 32)
        (t || decide ((cap + 2 ^ 32 - length) % 2 ^ 32 ≤ (formatByte n i (data i % 256)).length)) := by
  rw [toHexStringLoop]

theorem toHexStringLoop_spec (data : Nat → Nat) (n cap : Nat) (h1 : 1 ≤ n)
    (hcap : 6 * n + n / 8 ≤ cap) (hcap2 : cap < 2 ^ 32) :
    ∀ (k i : Nat) (buf : Nat → Char) (length : Nat), i + k = n →
      length = (loopText data n i).length →
      (∀ j, j < length → (loopText data n i)[j]? = some (buf j)) →
      (toHexStringLoop data n cap k i buf length false).2.1 = (loopText data n n).length
      ∧ (toHexStringLoop data n cap k i buf length false).2.2 = false
      ∧ (∀ j, j < (loopText data n n).length →
          (loopText data n n)[j]? = some ((toHexStringLoop data n cap k i buf length false).1 j))
      ∧ (∀ j, cap ≤ j → (toHexStringLoop data n cap k i buf length false).1 j = buf j) := by
  have h2 : n < 2 ^ 32 := by omega
  intro k
  induction k with
  | zero =>
    intro i buf length hik hlen hcont
    have hi : i = n := by omega
    subst hi
    have h0 : toHexStringLoop data i cap 0 i buf length false = (buf, length, false) := rfl
    rw [h0]
    exact ⟨hlen, rfl, fun j hj => hcont j (by omega), fun j _ => rfl⟩
  | succ k ih =>
    intro i buf length hik hlen hcont
    have hL := loopText_length data n i h1 h2 (by omega)
    have hL1 := loopText_length data n (i + 1) h1 h2 (by omega)
    have hne : ¬ i = n := by omega
    rw [if_neg hne] at hL
    have hsucc := loopText_succ data n i
    have hlen1 : (loopText data n (i + 1)).length =
        length + (formatByte n i (data i % 256)).length := by
      rw [hsucc, List.length_append, hlen]
    have hbound : (loopText data n (i + 1)).length + 2 ≤ cap := by
      rw [hL1]
      split_ifs <;> omega
    have hroom : (formatByte n i (data i % 256)).length <
        (cap + 2 ^ 32 - length) % 2 ^ 32 := by omega
    have hnot : decide ((cap + 2 ^ 32 - length) % 2 ^ 32 ≤
        (formatByte n i (data i % 256)).length) = false := by
      rw [decide_eq_false_iff_not]; omega
    have hmod : (length + (formatByte n i (data i % 256)).length) % 2 ^ 32 =
        (loopText data n (i + 1)).length := by
      rw [hlen1]; exact Nat.mod_eq_of_lt (by omega)
    rw [toHexStringLoop_succ, snprintf_of_room _ _ _ _ hroom, hnot, Bool.or_false]
    simp only []
    rw [hmod]
    have hstep := ih (i + 1)
      (store buf length (formatByte n i (data i % 256) ++ [Char.ofNat 0]))
      (loopText data n (i + 1)).length (by omega) rfl ?_
    · refine ⟨hstep.1, hstep.2.1, hstep.2.2.1, fun j hj => ?_⟩
      rw [hstep.2.2.2 j hj, store_apply]
      have hj1 : ¬ j < length := by omega
      rw [if_neg hj1]
      have hj2 : (formatByte n i (data i % 256) ++ [Char.ofNat 0])[j - length]? = none := by
        rw [List.getElem?_eq_none_iff, List.length_append, List.length_singleton]
        omega
      rw [hj2]
      rfl
    · intro j hj
      rw [store_apply, hsucc]
      by_cases hjl : j < length
      · rw [if_pos hjl, List.getElem?_append_left (by omega)]
        exact hcont j hjl
      · rw [if_neg hjl, List.getElem?_append_right (by omega), ← hlen]
        have hj3 : j - length < (formatByte n i (data i % 256)).length := by omega
        rw [List.getElem?_append_left hj3]
        cases hget : (formatByte n i (data i % 256))[j - length]? with
        | none =>
          rw [List.getElem?_eq_none_iff] at hget
          omega
        | some c => rfl


theorem toHexString_of_room (data : Nat → Nat) (n : Nat) (buf : Nat → Char) (cap : Nat)
    (htotal : 6 * n + n / 8 < 2 ^ 32) (hcap : 6 * n + n / 8 ≤ cap) :
    toHexString data n buf cap =
      some { buf := Function.update (toHexStringLoop data n cap n 0 buf 0 false).1
                      (toHexStringLoop data n cap n 0 buf 0 false).2.1 (Char.ofNat 0),
             bufLength := (toHexStringLoop data n cap n 0 buf 0 false).2.1,
             truncated := (toHexStringLoop data n cap n 0 buf 0 false).2.2,
             error := false } := by
  have e : ((6 * n) % 2 ^ 32 + n / 8) % 2 ^ 32 = 6 * n + n / 8 := by omega
  have hge : cap ≥ 6 * n + n / 8 := hcap
  have hn : n < 2 ^ 31 := by omega
  unfold toHexString
  simp only [e]
  rw [if_pos hge, if_pos hn]

/-- C14: for `dataLength` n ≥ 1 and a capacity `*bufLength` of at least 6n + n/8 (all below
2 ^ 32), `toHexString` returns with `*bufLength` set to 6n - 2 + (n-1)/8, the array holding
exactly that many characters of text (each byte as `0x` and two hex digits, a comma and a
blank after every byte but the last, a newline before every byte whose index is a non-zero
multiple of 8) followed by the NUL at `buf[length]`; no `snprintf` call truncates, the count
is below the capacity, and no index from the capacity on is written. -/
theorem toHexString_writes_hex_text (data : Nat → Nat) (n : Nat) (buf : Nat → Char)
    (cap : Nat) (h1 : 1 ≤ n) (htotal : 6 * n + n / 8 < 2 ^ 32) (hcap : 6 * n + n / 8 ≤ cap)
    (hcap2 : cap < 2 ^ 32) :
    ∃ r, toHexString data n buf cap = some r
      ∧ r.bufLength = 6 * n - 2 + (n - 1) / 8
      ∧ contents r.buf r.bufLength = hexText data n
      ∧ r.truncated = false
      ∧ r.error = false
      ∧ r.bufLength < cap
      ∧ r.buf r.bufLength = Char.ofNat 0
      ∧ (∀ j, cap ≤ j → r.buf j = buf j) := by
  have h2 : n < 2 ^ 32 := by omega
  obtain ⟨hlen, htr, hcont, hout⟩ := toHexStringLoop_spec data n cap h1 hcap hcap2 n 0 buf 0
    (by omega) rfl (fun j hj => absurd hj (by omega))
  have hL := loopText_length data n n h1 h2 (le_refl n)
  rw [if_pos rfl] at hL
  have hlen2 : (toHexStringLoop data n cap n 0 buf 0 false).2.1 = 6 * n - 2 + (n - 1) / 8 := by
    rw [hlen, hL]; omega
  refine ⟨_, toHexString_of_room data n buf cap htotal hcap, hlen2, ?_, htr, rfl, ?_, ?_, ?_⟩
  · show contents (Function.update _ _ _) (toHexStringLoop data n cap n 0 buf 0 false).2.1 = _
    rw [← loopText_eq_hexText data n h2]
    apply List.ext_getElem?
    intro j
    unfold contents
    rw [List.getElem?_map]
    by_cases hj : j < (toHexStringLoop data n cap n 0 buf 0 false).2.1
    · rw [List.getElem?_range hj, Option.map_some', Function.update_noteq (by omega),
        hcont j (by omega)]
    · have hr : (List.range (toHexStringLoop data n cap n 0 buf 0 false).2.1)[j]? = none := by
        rw [List.getElem?_eq_none_iff, List.length_range]; omega
      have hl : (loopText data n n)[j]? = none := by
        rw [List.getElem?_eq_none_iff]; omega
      rw [hr, hl]
      rfl
  · show (toHexStringLoop data n cap n 0 buf 0 false).2.1 < cap
    rw [hlen2]; omega
  · show Function.update _ _ _ _ = _
    rw [Function.update_same]
  · intro j hj
    show Function.update _ _ _ _ = _
    rw [Function.update_noteq (by omega), hout j hj]

/-- C14 at a concrete input: ten bytes 250, 251, ... and a capacity of 61. -/
theorem toHexString_writes_hex_text_witness :
    ∃ r, toHexString (fun i => 250 + i) 10 (fun _ => '?') 61 = some r
      ∧ r.bufLength = 59
      ∧ contents r.buf r.bufLength =
          "0xFA, 0xFB, 0xFC, 0xFD, 0xFE, 0xFF, 0x00, 0x01, \n0x02, 0x03".toList := by
  obtain ⟨r, hr, hlen, hcont, _⟩ := toHexString_writes_hex_text (fun i => 250 + i) 10
    (fun _ => '?') 61 (by decide) (by decide) (by decide) (by decide)
  refine ⟨r, hr, hlen, ?_⟩
  rw [hcont]
  decide

end DeviceInfo
